import Mathlib

/-!
MH-Z CO2 sensor driver (`MHZ.cpp`)

A shallow embedding of the driver: checksum, command frames, the warm-up /
rate-limit gate, the response parser, the PWM decoder and the constructors.

Conventions of the embedding.
* A `byte` / `unsigned char` is a `Nat` below 256; every assignment to one is
  reduced `% 256`.
* `unsigned long` is 32 bits wide: values are `Nat`, arithmetic is `% 2^32`.
* `int` is a signed integer of `w` bits (`w` is a parameter: 16 on AVR boards,
  32 on ESP / ARM boards); results of `int` arithmetic go through `wrapInt w`.
* The object together with the three file-scope globals and the environment
  (clock, serial line) is one record `State`; member functions take it and
  return their result together with the new record.
* `Serial.print` output is not part of the state, except for the bytes reported
  as skipped by the resynchronisation loop.
-/

namespace MHZ

/-! ## Machine integers -/

/-- Wrap-around of a mathematical integer into a signed `w`-bit `int`. -/
def wrapInt (w : Nat) (x : Int) : Int :=
  (x + 2 ^ (w - 1)) % 2 ^ w - 2 ^ (w - 1)

/-- Conversion of an `int` to `byte` (`unsigned char`, `uint8_t`). -/
def toByte (x : Int) : Nat := (x % 256).toNat

/-- Conversion of an `int` to `unsigned long` (32 bits). -/
def toULong (x : Int) : Nat := (x % 4294967296).toNat

/-- Subtraction of two `unsigned long` values. -/
def subULong (a b : Nat) : Nat := (a + 4294967296 - b % 4294967296) % 4294967296

/-! ## Constants (lines 8-23) -/

def MHZ14A : Int := 14
def MHZ19B : Int := 19

/-- The constant `3L * 60L * 1000L`, computed in `long`. -/
def MHZ14A_PREHEATING_TIME : Nat := 3 * 60 * 1000
/-- The constant `3L * 60L * 1000L`, computed in `long`. -/
def MHZ19B_PREHEATING_TIME : Nat := 3 * 60 * 1000

/-- The constant `60 * 1000`, computed in `int` and converted to `unsigned long`. -/
def MHZ14A_RESPONSE_TIME (w : Nat) : Nat := toULong (wrapInt w (60 * 1000))
/-- The constant `120 * 1000`, computed in `int` and converted to `unsigned long`. -/
def MHZ19B_RESPONSE_TIME (w : Nat) : Nat := toULong (wrapInt w (120 * 1000))

def STATUS_NO_RESPONSE : Int := -2
def STATUS_CHECKSUM_MISMATCH : Int := -3
def STATUS_INCOMPLETE : Int := -4
def STATUS_NOT_READY : Int := -5
def STATUS_PWM_NOT_CONFIGURED : Int := -6
def STATUS_SERIAL_NOT_CONFIGURED : Int := -7
def STATUS_BAD_SPAN_VALUE : Int := -8

/-! ## State -/

/-- The serial line behind `_serial`, as the driver sees it through
`write`, `available`, `peek`, `read`, `readBytes` and `flush`. -/
structure Stream where
  /-- received bytes that have not been read yet, oldest first -/
  rx : List Nat
  /-- bytes that arrive on the line during each coming `delay(100)` -/
  arrivals : List (List Nat)
  /-- the byte blocks handed to `write`, one entry per call, oldest first -/
  written : List (List Nat)
  /-- number of `flush()` calls so far -/
  flushes : Nat
deriving DecidableEq, Repr

/-- Modelled from the spec: the declaration of the member `temperature` is in the header
`MHZ.h`, which is not among the sources. The spec describes it as the cached decoded
temperature value (`byte[4] − 40`, or the ChecksumMismatch sentinel after a bad checksum),
so the member is taken to be a signed `int`. -/
abbrev TemperatureT := Int

/-- The driver object, the globals `lastRequest`, `SerialConfigured`,
`PwmConfigured`, and the environment. -/
structure State where
  /-- member `_type` (`uint8_t`) -/
  _type : Nat
  /-- member `debug` -/
  debug : Bool
  /-- member `temperature` -/
  temperature : TemperatureT
  /-- member `_serial` -/
  _serial : Stream
  /-- global `lastRequest` (`unsigned long`) -/
  lastRequest : Nat
  /-- global `SerialConfigured` -/
  SerialConfigured : Bool
  /-- global `PwmConfigured` -/
  PwmConfigured : Bool
  /-- milliseconds since the program started -/
  clock : Nat
  /-- bytes the resynchronisation loop has consumed with `read()` and reported
  after "MHZ: - skipping unexpected readings:", oldest first -/
  skipped : List Nat
  /-- member `_pwmpin` (`uint8_t`) -/
  _pwmpin : Nat := 0
deriving DecidableEq, Repr

/-- The value of `millis()` (an `unsigned long`). -/
def millis (s : State) : Nat := s.clock % 4294967296

/-- The call `delay(ms)`: time passes, and what arrives on the line meanwhile
becomes available. -/
def delay (ms : Nat) (s : State) : State :=
  { s with
    clock := s.clock + ms
    _serial := { s._serial with
      rx := s._serial.rx ++ s._serial.arrivals.headD []
      arrivals := s._serial.arrivals.tail } }

/-- The call `_serial->write(cmd, 9)`. -/
def write (cmd : List Nat) (n : Nat) (s : State) : State :=
  { s with _serial := { s._serial with written := s._serial.written ++ [cmd.take n] } }

/-- The call `_serial->flush()`. Only the call is recorded. -/
def flush (s : State) : State :=
  { s with _serial := { s._serial with flushes := s._serial.flushes + 1 } }

/-- The call `_serial->available()`. -/
def available (s : State) : Nat := s._serial.rx.length

/-! ## Checksum (lines 293-307) -/

/-- The loop `for (i = 1; i < 8; i++) checksum += packet[i];` on an `unsigned char`
accumulator that starts at 0. -/
def checksumLoop (packet : List Nat) : Nat :=
  (List.range' 1 7).foldl (fun checksum i => (checksum + packet.getD i 0) % 256) 0

/-- `MHZ::getCheckSum`. -/
def getCheckSum (s : State) (packet : List Nat) : Nat :=
  if !s.SerialConfigured then
    toByte STATUS_SERIAL_NOT_CONFIGURED
  else
    let checksum := checksumLoop packet
    let checksum := toByte (0xff - (checksum : Int))
    let checksum := (checksum + 1) % 256
    checksum

/-! ## Warm-up and rate limit (lines 81-104) -/

/-- `MHZ::isPreHeating`. -/
def isPreHeating (s : State) : Bool :=
  if (s._type : Int) = MHZ14A then
    decide (millis s < MHZ14A_PREHEATING_TIME)
  else if (s._type : Int) = MHZ19B then
    decide (millis s < MHZ19B_PREHEATING_TIME)
  else
    false

/-- `MHZ::isReady`. The subtraction `millis() - MHZ14A_RESPONSE_TIME` is an
`unsigned long` subtraction. -/
def isReady (w : Nat) (s : State) : Bool :=
  if isPreHeating s then false
  else if (s._type : Int) = MHZ14A then
    decide (s.lastRequest < subULong (millis s) (MHZ14A_RESPONSE_TIME w))
  else if (s._type : Int) = MHZ19B then
    decide (s.lastRequest < subULong (millis s) (MHZ19B_RESPONSE_TIME w))
  else
    true

/-! ## Commands (lines 106-178)

The three setters are declared `int` but end without a `return` once the frame
has been sent; the result is `none` on that path and `some status` on an early
`return`. -/

/-- `MHZ::setCO2ABCmode`. -/
def setCO2ABCmode (w : Nat) (enable : Bool) (s : State) : Option Int × State :=
  if !s.SerialConfigured then (some STATUS_SERIAL_NOT_CONFIGURED, s)
  else if !isReady w s then (some STATUS_NOT_READY, s)
  else
    let cmd : List Nat := [0xFF, 0x01, 0x79, 0x00, 0x00, 0x00, 0x00, 0x00, 0x86]
    let cmd := if enable then (cmd.set 3 0xA0).set 8 0xE6 else cmd
    let s := write cmd 9 s
    let s := { s with lastRequest := millis s }
    let s := delay 100 s
    (none, s)

/-- `MHZ::setCO2background`. -/
def setCO2background (w : Nat) (s : State) : Option Int × State :=
  if !s.SerialConfigured then (some STATUS_SERIAL_NOT_CONFIGURED, s)
  else if !isReady w s then (some STATUS_NOT_READY, s)
  else
    let cmd : List Nat := [0xFF, 0x01, 0x87, 0x00, 0x00, 0x00, 0x00, 0x00, 0x78]
    let s := write cmd 9 s
    let s := { s with lastRequest := millis s }
    let s := delay 100 s
    (none, s)

/-- `MHZ::setCO2span`. The operators `/` and `%` on `int` round towards zero. -/
def setCO2span (w : Nat) (span_ppm : Int) (s : State) : Option Int × State :=
  if span_ppm < 1000 ∨ span_ppm > 5000 then (some STATUS_BAD_SPAN_VALUE, s)
  else if !s.SerialConfigured then (some STATUS_SERIAL_NOT_CONFIGURED, s)
  else if !isReady w s then (some STATUS_NOT_READY, s)
  else
    let cmd : List Nat := [0xFF, 0x01, 0x88, 0x00, 0x00, 0x00, 0x00, 0x00, 0x00]
    let cmd := cmd.set 3 (toByte (Int.tdiv span_ppm 256))
    let cmd := cmd.set 4 (toByte (Int.tmod span_ppm 256))
    let check := getCheckSum s cmd
    let cmd := cmd.set 8 check
    let s := write cmd 9 s
    let s := { s with lastRequest := millis s }
    let s := delay 100 s
    (none, s)

/-! ## Reading a concentration (lines 180-282) -/

/-- The wait loop of `readCO2UART` (lines 197-206), entered with the current
value of `waited`. The flag is `true` when the loop is left because
`available()` is non-zero, and `false` when the function returns
`STATUS_NO_RESPONSE` from inside the loop (after the `flush()`). -/
def waitLoop (waited : Int) (s : State) : Bool × State :=
  if available s = 0 then
    let s := delay 100 s
    if waited > 10 then (false, flush s)
    else waitLoop (waited + 1) s
  else (true, s)
termination_by (11 - waited).toNat
decreasing_by omega

/-- The resynchronisation loop (lines 213-221) on the unread bytes and the
record of skipped bytes: while a byte is available and it is not `0xFF`,
report it and consume it. -/
def resyncLoop : List Nat → List Nat → List Nat × List Nat
  | [], skipped => ([], skipped)
  | b :: rest, skipped =>
    if b % 256 ≠ 0xFF then resyncLoop rest (skipped ++ [b])
    else (b :: rest, skipped)

/-- The resynchronisation loop on the state. -/
def resync (s : State) : State :=
  let r := resyncLoop s._serial.rx s.skipped
  { s with _serial := { s._serial with rx := r.1 }, skipped := r.2 }

/-- The call `_serial->readBytes(buffer, n)`: the bytes obtained (at most `n`)
and the state after they are consumed. What is on the line when the call is
made is all that can be obtained: the call does not wait for bytes on the way. -/
def readBytes (n : Nat) (s : State) : List Nat × State :=
  (s._serial.rx.take n, { s with _serial := { s._serial with rx := s._serial.rx.drop n } })

/-- Lines 245-281 of `readCO2UART`: checksum test and decoding of the nine
bytes in `response`. -/
def decodeResponse (w : Nat) (response : List Nat) (s : State) : Int × State :=
  let check := getCheckSum s response
  if response.getD 8 0 ≠ check then
    let s := { s with temperature := STATUS_CHECKSUM_MISMATCH }
    (STATUS_CHECKSUM_MISMATCH, flush s)
  else
    let ppm_uart := wrapInt w (wrapInt w (256 * (response.getD 2 0 : Int)) + response.getD 3 0)
    let s := { s with temperature := wrapInt w ((response.getD 4 0 : Int) - 40) }
    (ppm_uart, flush s)

/-- The state of `readCO2UART` after the request has been written (lines 187-192). -/
def sendRequest (s : State) : State :=
  let cmd : List Nat := [0xFF, 0x01, 0x86, 0x00, 0x00, 0x00, 0x00, 0x00, 0x79]
  let s := write cmd 9 s
  { s with lastRequest := millis s }

/-- Lines 209-281 of `readCO2UART`: what follows the wait loop once bytes are
available. `response` has been cleared by `memset(response, 0, 9)`. -/
def readResponse (w : Nat) (s : State) : Int × State :=
  let response : List Nat := List.replicate 9 0
  let s := resync s
  if available s > 0 then
    let (got, s) := readBytes 9 s
    let count := got.length
    let response := got ++ response.drop count
    if count < 9 then (STATUS_INCOMPLETE, flush s)
    else decodeResponse w response s
  else (STATUS_INCOMPLETE, flush s)

/-- `MHZ::readCO2UART`. -/
def readCO2UART (w : Nat) (s : State) : Int × State :=
  if !s.SerialConfigured then (STATUS_SERIAL_NOT_CONFIGURED, s)
  else if !isReady w s then (STATUS_NOT_READY, s)
  else
    let s := sendRequest s
    match waitLoop 0 s with
    | (false, s) => (STATUS_NO_RESPONSE, s)
    | (true, s) => readResponse w s

/-- `MHZ::getLastTemperature`. -/
def getLastTemperature (s : State) : Int :=
  if !s.SerialConfigured then STATUS_SERIAL_NOT_CONFIGURED
  else if isPreHeating s then STATUS_NOT_READY
  else s.temperature

/-! ## Reading a concentration from the PWM line (lines 309-328) -/

/-- Addition of two `unsigned long` values. -/
def addULong (a b : Nat) : Nat := (a + b) % 4294967296

/-- Multiplication of two `unsigned long` values. -/
def mulULong (a b : Nat) : Nat := (a * b) % 4294967296

/-- The `do ... while (th == 0)` loop of `readCO2PWM` (lines 317-322). `pulses` holds
the values (`unsigned long`, in microseconds, 0 on a time-out) that the coming calls of
`pulseIn(_pwmpin, HIGH, 1004000)` return, one per call. The result is the final
`ppm_pwm` together with the values not consumed, or `none` when every call the list
provides for leaves `th == 0`, so that the loop has not ended yet. -/
def pwmLoop : List Nat → Option (Nat × List Nat)
  | [] => none
  | pulse :: rest =>
    let th := pulse / 1000
    let tl := subULong 1004 th
    let ppm_pwm := mulULong 2000 (subULong th 2) / subULong (addULong th tl) 4
    if th = 0 then pwmLoop rest else some (ppm_pwm, rest)

/-- `MHZ::readCO2PWM`, for the values `pulses` that `pulseIn` is going to return. The
`unsigned long ppm_pwm` is converted to `int` by the `return`. -/
def readCO2PWM (w : Nat) (pulses : List Nat) (s : State) : Option (Int × List Nat) :=
  if !s.PwmConfigured then some (STATUS_PWM_NOT_CONFIGURED, pulses)
  else
    match pwmLoop pulses with
    | none => none
    | some (ppm_pwm, rest) => some (wrapInt w ppm_pwm, rest)

/-! ## Constructors and globals (lines 25-67) -/

/-- The initial values of the globals (lines 25-28):
`lastRequest = 0`, `SerialConfigured = true`, `PwmConfigured = true`. -/
def initialGlobals (s : State) : State :=
  { s with lastRequest := 0, SerialConfigured := true, PwmConfigured := true }

/-- A call of one of the five constructors, in the order of the source, with its
arguments. For the two constructors that create a `SoftwareSerial`, `line` is the serial
line behind the two pins. -/
inductive Ctor where
  | pinsPwm (rxpin txpin pwmpin type : Nat) (line : Stream)
  | pins (rxpin txpin type : Nat) (line : Stream)
  | pwm (pwmpin type : Nat)
  | streamPwm (serial : Stream) (pwmpin type : Nat)
  | stream (serial : Stream) (type : Nat)
deriving DecidableEq, Repr

/-- The effect of a constructor call. The globals are shared by all objects; members a
constructor does not assign keep whatever value they have. -/
def construct : Ctor → State → State
  | .pinsPwm _ _ pwmpin type line, s =>
    { s with _pwmpin := pwmpin, _type := type, _serial := line }
  | .pins _ _ type line, s =>
    { s with _type := type, _serial := line, PwmConfigured := false }
  | .pwm pwmpin type, s =>
    { s with _pwmpin := pwmpin, _type := type, SerialConfigured := false }
  | .streamPwm serial pwmpin type, s =>
    { s with _serial := serial, _pwmpin := pwmpin, _type := type }
  | .stream serial type, s =>
    { s with _serial := serial, _type := type, PwmConfigured := false }

/-- A sequence of constructor calls, first call first. -/
def constructAll (cs : List Ctor) (s : State) : State :=
  cs.foldl (fun st c => construct c st) s

/-! ## Sequences of calls -/

/-- A call of one of the five serial operations. -/
inductive Call where
  | readCO2UART
  | setCO2ABCmode (enable : Bool)
  | setCO2background
  | setCO2span (span_ppm : Int)
  | getLastTemperature
deriving DecidableEq, Repr

/-- The state after a call. -/
def Call.exec (w : Nat) : Call → State → State
  | .readCO2UART, s => (MHZ.readCO2UART w s).2
  | .setCO2ABCmode enable, s => (MHZ.setCO2ABCmode w enable s).2
  | .setCO2background, s => (MHZ.setCO2background w s).2
  | .setCO2span span_ppm, s => (MHZ.setCO2span w span_ppm s).2
  | .getLastTemperature, s => s

/-- What happens between two calls and the call that follows: `elapsed` milliseconds
pass, the bytes `incoming` have arrived on the line, and `arrivals` are the bytes that
will arrive during the coming `delay(100)` calls. -/
structure Event where
  elapsed : Nat
  incoming : List Nat
  arrivals : List (List Nat)
  call : Call
deriving DecidableEq, Repr

/-- The state in which the call of an event starts. -/
def Event.before (e : Event) (s : State) : State :=
  { s with
    clock := s.clock + e.elapsed
    _serial := { s._serial with rx := s._serial.rx ++ e.incoming, arrivals := e.arrivals } }

/-- The state after a sequence of events, first event first. -/
def run (w : Nat) : List Event → State → State
  | [], s => s
  | e :: es, s => run w es (e.call.exec w (e.before s))

/-- The frames written along a sequence of events: for each call that has handed a block
to `write`, the value of `millis()` when the call started (the time of its readiness
check) and the value of `lastRequest` when it returned. -/
def sendLog (w : Nat) : List Event → State → List (Nat × Nat)
  | [], _ => []
  | e :: es, s =>
    let s0 := e.before s
    let s1 := e.call.exec w s0
    (if s1._serial.written.length ≠ s0._serial.written.length
      then [(millis s0, s1.lastRequest)] else [])
      ++ sendLog w es s1

/-- Two states that differ at most in the clock and in what the serial line
holds or has been asked to flush. -/
structure SameButLine (s t : State) : Prop where
  type_eq : t._type = s._type
  debug_eq : t.debug = s.debug
  temperature_eq : t.temperature = s.temperature
  written_eq : t._serial.written = s._serial.written
  lastRequest_eq : t.lastRequest = s.lastRequest
  serial_eq : t.SerialConfigured = s.SerialConfigured
  pwm_eq : t.PwmConfigured = s.PwmConfigured
  skipped_eq : t.skipped = s.skipped

/-! ## Example states -/

/-- A type-14 sensor, four minutes after start, nothing sent yet, quiet line. -/
def idle14 : State :=
  { _type := 14, debug := false, temperature := 0,
    _serial := { rx := [], arrivals := [], written := [], flushes := 0 },
    lastRequest := 0, SerialConfigured := true, PwmConfigured := true,
    clock := 240000, skipped := [] }


/-- The valid response `FF 86 01 90 43 00 00 00 A6`: 400 ppm, temperature byte 67. -/
def goodFrame : List Nat := [0xFF, 0x86, 0x01, 0x90, 0x43, 0x00, 0x00, 0x00, 0xA6]

/-- The state `idle14` with a line on which nothing is there at first and two stray
bytes followed by `goodFrame` arrive during the second `delay(100)`. -/
def strayThenFrame : State :=
  { idle14 with
    temperature := 19
    _serial := { idle14._serial with arrivals := [[], [0x12, 0x34] ++ goodFrame] } }

/-- The state `idle14` with the ten bytes `12 34 FF 01 86 01 90 00 00 79` waiting on the
line. -/
def strayStream : State :=
  { idle14 with
    _serial := { idle14._serial with
      rx := [0x12, 0x34, 0xFF, 0x01, 0x86, 0x01, 0x90, 0x00, 0x00, 0x79] } }

/-- The state `idle14` with a quiet line on which `goodFrame` arrives during the eleventh
`delay(100)`: the first eleven calls of `available()` return 0. -/
def lateFrame : State :=
  { idle14 with
    _serial := { idle14._serial with arrivals := List.replicate 10 [] ++ [goodFrame] } }

/-- A type-14 sensor whose last request was sent at 180000 ms, looked at 60000 ms later. -/
def onTheMinute : State :=
  { idle14 with lastRequest := 180000, clock := 240000 }

/-- The state `idle14` with one stray byte and the first five bytes of a frame waiting on
the line. -/
def shortLine : State :=
  { idle14 with _serial := { idle14._serial with rx := [0x12, 0xFF, 0x86, 0x01, 0x90, 0x43] } }

/-- The state `idle14` with an earlier temperature of 23 cached and, on the line,
`goodFrame` with its last byte changed from `A6` to `A7`. -/
def badChecksum : State :=
  { idle14 with
    temperature := 23
    _serial := { idle14._serial with
      rx := [0xFF, 0x86, 0x01, 0x90, 0x43, 0x00, 0x00, 0x00, 0xA7] } }

/-- A type-19 sensor whose last request was sent at 200000 ms, looked at 120001 ms later. -/
def pastTheInterval19 : State :=
  { idle14 with _type := 19, lastRequest := 200000, clock := 320001 }

/-- A type-19 sensor in the state right after construction: time 0, initial globals. -/
def fresh19 : State :=
  initialGlobals { idle14 with _type := 19, clock := 0 }

/-- The state `idle14` with the PWM-only configuration: serial is not configured. -/
def pwmOnly14 : State :=
  { idle14 with SerialConfigured := false }

/-- A stream on which nothing has happened. -/
def quietLine : Stream :=
  { rx := [], arrivals := [], written := [], flushes := 0 }

/-- A serial-only object on pins 10 and 11 is constructed, then a PWM-only object on
pin 9, both for a type-19 sensor. -/
def serialThenPwm : List Ctor :=
  [Ctor.pins 10 11 19 quietLine, Ctor.pwm 9 19]

/-- A type-14 sensor in the state right after construction: time 0, initial globals. -/
def fresh14 : State :=
  initialGlobals { idle14 with clock := 0 }

/-- Four calls on `fresh14`: a read at 200000 ms whose answer arrives during the second
`delay(100)`, a `setCO2background` 30000 ms after the read has returned, a
`setCO2span(2000)` 40000 ms later, and a `getLastTemperature`. -/
def fourCalls : List Event :=
  [{ elapsed := 200000, incoming := [], arrivals := [[], goodFrame], call := Call.readCO2UART },
    { elapsed := 30000, incoming := [], arrivals := [], call := Call.setCO2background },
    { elapsed := 40000, incoming := [], arrivals := [], call := Call.setCO2span 2000 },
    { elapsed := 5, incoming := [], arrivals := [], call := Call.getLastTemperature }]

/-- Three setter calls on `fresh14`: `setCO2ABCmode(true)` at 200000 ms,
`setCO2background` 1 ms after it has returned, and `setCO2span(2000)` right after that. -/
def threeSetters : List Event :=
  [{ elapsed := 200000, incoming := [], arrivals := [], call := Call.setCO2ABCmode true },
    { elapsed := 1, incoming := [], arrivals := [], call := Call.setCO2background },
    { elapsed := 0, incoming := [], arrivals := [], call := Call.setCO2span 2000 }]

theorem wrapInt_of_lt (w k : Nat) (x : Int) (hk : k + 1 ≤ w)
    (h1 : -(2 ^ k : Int) ≤ x) (h2 : x < 2 ^ k) : wrapInt w x = x := by
  obtain ⟨m, rfl⟩ : ∃ m, w = m + 1 := ⟨w - 1, by omega⟩
  have hkm : k ≤ m := by omega
  have hpow : (2 : Int) ^ k ≤ 2 ^ m := by
    exact_mod_cast Nat.pow_le_pow_right (by norm_num : 0 < 2) hkm
  have h2m : (2 : Int) ^ (m + 1) = 2 * 2 ^ m := by ring
  unfold wrapInt
  simp only [Nat.add_sub_cancel]
  rw [h2m, Int.emod_eq_of_lt (by omega) (by omega)]
  omega

/-! ## Checksum -/

theorem checksumLoop_eq (p : List Nat) :
    checksumLoop p =
      (p.getD 1 0 + p.getD 2 0 + p.getD 3 0 + p.getD 4 0 + p.getD 5 0 + p.getD 6 0
        + p.getD 7 0) % 256 := by
  simp only [checksumLoop, List.range', List.foldl, Nat.reduceAdd]
  omega

theorem getCheckSum_eq (s : State) (p : List Nat) (hs : s.SerialConfigured = true) :
    getCheckSum s p =
      (0xFF - (p.getD 1 0 + p.getD 2 0 + p.getD 3 0 + p.getD 4 0 + p.getD 5 0 + p.getD 6 0
        + p.getD 7 0) % 256 + 1) % 256 := by
  simp only [getCheckSum, hs, checksumLoop_eq, toByte]
  simp only [Bool.not_true, Bool.false_eq_true, if_false]
  omega

/-- C1: with serial configured, for every 9-byte packet `p` the result of `getCheckSum` is
`(0xFF − (S mod 256) + 1) mod 256`, where `S` is the sum of the bytes at indices 1 to 7;
for the request frame `FF 01 86 00 00 00 00 00 79` the result is `0x79`. -/
theorem getCheckSum_formula (s : State) (p : List Nat) (hs : s.SerialConfigured = true)
    (_hlen : p.length = 9) (_hbytes : ∀ b ∈ p, b < 256) :
    getCheckSum s p =
      (0xFF - (p.getD 1 0 + p.getD 2 0 + p.getD 3 0 + p.getD 4 0 + p.getD 5 0 + p.getD 6 0
        + p.getD 7 0) % 256 + 1) % 256
    ∧ getCheckSum s [0xFF, 0x01, 0x86, 0, 0, 0, 0, 0, 0x79] = 0x79 := by
  refine ⟨getCheckSum_eq s p hs, ?_⟩
  rw [getCheckSum_eq s _ hs]
  rfl

theorem getCheckSum_formula_witness :
    getCheckSum idle14 [0xFF, 0x86, 0x01, 0x90, 0, 0, 0, 0, 0xE9] =
      (0xFF - (0x86 + 0x01 + 0x90 + 0 + 0 + 0 + 0) % 256 + 1) % 256
    ∧ getCheckSum idle14 [0xFF, 0x01, 0x86, 0, 0, 0, 0, 0, 0x79] = 0x79 :=
  getCheckSum_formula idle14 [0xFF, 0x86, 0x01, 0x90, 0, 0, 0, 0, 0xE9] rfl rfl (by decide)

/-! ## The wait loop -/

theorem SameButLine.trans {a b c : State} (h1 : SameButLine a b) (h2 : SameButLine b c) :
    SameButLine a c :=
  ⟨h2.1.trans h1.1, h2.2.trans h1.2, h2.3.trans h1.3, h2.4.trans h1.4, h2.5.trans h1.5,
    h2.6.trans h1.6, h2.7.trans h1.7, h2.8.trans h1.8⟩

theorem sameButLine_delay (ms : Nat) (s : State) : SameButLine s (delay ms s) :=
  ⟨rfl, rfl, rfl, rfl, rfl, rfl, rfl, rfl⟩

theorem sameButLine_flush (s : State) : SameButLine s (flush s) :=
  ⟨rfl, rfl, rfl, rfl, rfl, rfl, rfl, rfl⟩

/-- The wait loop touches only the clock and the line; it flushes once exactly when it
gives up, and when it does not give up a byte is available. -/
theorem waitLoop_frame (waited : Int) (s : State) :
    SameButLine s (waitLoop waited s).2
    ∧ (waitLoop waited s).2._serial.flushes
        = s._serial.flushes + (if (waitLoop waited s).1 then 0 else 1)
    ∧ ((waitLoop waited s).1 = true → (waitLoop waited s).2._serial.rx ≠ []) := by
  induction waited, s using waitLoop.induct with
  | case1 waited s h hw =>
    rw [waitLoop]
    simp only [h, hw, if_true]
    exact ⟨(sameButLine_delay 100 s).trans (sameButLine_flush _), by simp [flush, delay],
      by simp⟩
  | case2 waited s h s1 hw ih =>
    rw [waitLoop]
    simp only [h, hw, if_true, if_false]
    obtain ⟨a, b, c⟩ := ih
    exact ⟨(sameButLine_delay 100 s).trans a, by rw [b]; rfl, c⟩
  | case3 waited s h =>
    rw [waitLoop]
    simp only [h, if_false]
    refine ⟨⟨rfl, rfl, rfl, rfl, rfl, rfl, rfl, rfl⟩, by simp, fun _ hrx => h ?_⟩
    simp [available, hrx]

theorem waitLoop_available (waited : Int) (s : State) (h : s._serial.rx ≠ []) :
    waitLoop waited s = (true, s) := by
  rw [waitLoop]
  have : available s ≠ 0 := by
    simpa [available] using h
  simp [this]

/-! ## Resynchronisation and reading -/

theorem resyncLoop_eq (rx skipped : List Nat) :
    resyncLoop rx skipped =
      (rx.dropWhile (fun b => decide (b % 256 ≠ 0xFF)),
        skipped ++ rx.takeWhile (fun b => decide (b % 256 ≠ 0xFF))) := by
  induction rx generalizing skipped with
  | nil => simp [resyncLoop]
  | cons b rest ih =>
    by_cases hb : b % 256 = 0xFF
    · simp [resyncLoop, hb]
    · simp [resyncLoop, hb, ih]

theorem resyncLoop_append (pre f skipped : List Nat)
    (hpre : ∀ b ∈ pre, b < 256 ∧ b ≠ 0xFF) (hf : f.getD 0 0 = 0xFF) :
    resyncLoop (pre ++ f) skipped = (f, skipped ++ pre) := by
  induction pre generalizing skipped with
  | nil =>
    cases f with
    | nil => simp [resyncLoop]
    | cons a rest =>
      have ha : a = 255 := by simpa using hf
      simp [resyncLoop, ha]
  | cons b rest ih =>
    have hb := hpre b (by simp)
    have hb256 : b % 256 ≠ 255 := by omega
    have := ih (skipped ++ [b]) (fun c hc => hpre c (by simp [hc]))
    simp [resyncLoop, hb256, this]

theorem length_nine (f : List Nat) (h : f.length = 9) :
    ∃ a0 a1 a2 a3 a4 a5 a6 a7 a8, f = [a0, a1, a2, a3, a4, a5, a6, a7, a8] := by
  match f, h with
  | [a0, a1, a2, a3, a4, a5, a6, a7, a8], _ => exact ⟨a0, a1, a2, a3, a4, a5, a6, a7, a8, rfl⟩

/-- Once the wait loop has ended with bytes available, `readCO2UART` is `readResponse`. -/
theorem readCO2UART_of_wait (w : Nat) (s s1 : State) (hser : s.SerialConfigured = true)
    (hready : isReady w s = true) (hwait : waitLoop 0 (sendRequest s) = (true, s1)) :
    readCO2UART w s = readResponse w s1 := by
  simp [readCO2UART, hser, hready, hwait]

/-- Nine bytes at hand after resynchronisation are handed to the checksum test. -/
theorem readResponse_full (w : Nat) (s : State) (r rest : List Nat)
    (hrx : (resyncLoop s._serial.rx s.skipped).1 = r ++ rest) (hlen : r.length = 9) :
    readResponse w s =
      decodeResponse w r
        { s with
          _serial := { s._serial with rx := rest }
          skipped := (resyncLoop s._serial.rx s.skipped).2 } := by
  obtain ⟨a0, a1, a2, a3, a4, a5, a6, a7, a8, rfl⟩ := length_nine r hlen
  simp [readResponse, resync, available, readBytes, hrx]

/-- Fewer than nine bytes at hand after resynchronisation give `STATUS_INCOMPLETE` and
one `flush()`. -/
theorem readResponse_short (w : Nat) (s : State)
    (hrx : (resyncLoop s._serial.rx s.skipped).1.length < 9) :
    (readResponse w s).1 = STATUS_INCOMPLETE
    ∧ (readResponse w s).2._serial.flushes = s._serial.flushes + 1
    ∧ (readResponse w s).2.skipped = (resyncLoop s._serial.rx s.skipped).2 := by
  have h9 : min 9 (resyncLoop s._serial.rx s.skipped).1.length
      = (resyncLoop s._serial.rx s.skipped).1.length := by omega
  by_cases h0 : (resyncLoop s._serial.rx s.skipped).1 = []
  · simp [readResponse, resync, available, h0, flush]
  · simp [readResponse, resync, available, readBytes, h0, flush, hrx, h9]
    split <;> simp_all
theorem decodeResponse_written (w : Nat) (r : List Nat) (s : State) :
    (decodeResponse w r s).2._serial.written = s._serial.written := by
  unfold decodeResponse
  simp only []
  split <;> rfl

theorem readResponse_written (w : Nat) (s : State) :
    (readResponse w s).2._serial.written = s._serial.written := by
  unfold readResponse
  simp only []
  split
  · split
    · rfl
    · rw [decodeResponse_written]; rfl
  · rfl

/-! ## Command frames -/

/-- C2: with serial configured and the sensor ready, each of `readCO2UART`,
`setCO2ABCmode(true)`, `setCO2ABCmode(false)` and `setCO2background` hands exactly one
block of nine bytes to `write`, namely `FF 01 86 00 00 00 00 00 79`,
`FF 01 79 A0 00 00 00 00 E6`, `FF 01 79 00 00 00 00 00 86` and
`FF 01 87 00 00 00 00 00 78`; the last byte of each equals `getCheckSum` of the frame. -/
theorem fixed_command_frames (w : Nat) (s : State) (hser : s.SerialConfigured = true)
    (hready : isReady w s = true) :
    (readCO2UART w s).2._serial.written
        = s._serial.written ++ [[0xFF, 0x01, 0x86, 0x00, 0x00, 0x00, 0x00, 0x00, 0x79]]
    ∧ (setCO2ABCmode w true s).2._serial.written
        = s._serial.written ++ [[0xFF, 0x01, 0x79, 0xA0, 0x00, 0x00, 0x00, 0x00, 0xE6]]
    ∧ (setCO2ABCmode w false s).2._serial.written
        = s._serial.written ++ [[0xFF, 0x01, 0x79, 0x00, 0x00, 0x00, 0x00, 0x00, 0x86]]
    ∧ (setCO2background w s).2._serial.written
        = s._serial.written ++ [[0xFF, 0x01, 0x87, 0x00, 0x00, 0x00, 0x00, 0x00, 0x78]]
    ∧ getCheckSum s [0xFF, 0x01, 0x86, 0x00, 0x00, 0x00, 0x00, 0x00, 0x79] = 0x79
    ∧ getCheckSum s [0xFF, 0x01, 0x79, 0xA0, 0x00, 0x00, 0x00, 0x00, 0xE6] = 0xE6
    ∧ getCheckSum s [0xFF, 0x01, 0x79, 0x00, 0x00, 0x00, 0x00, 0x00, 0x86] = 0x86
    ∧ getCheckSum s [0xFF, 0x01, 0x87, 0x00, 0x00, 0x00, 0x00, 0x00, 0x78] = 0x78 := by
  refine ⟨?_, ?_, ?_, ?_, ?_, ?_, ?_, ?_⟩
  · have hsent : (sendRequest s)._serial.written
        = s._serial.written ++ [[0xFF, 0x01, 0x86, 0x00, 0x00, 0x00, 0x00, 0x00, 0x79]] := rfl
    have hframe := (waitLoop_frame 0 (sendRequest s)).1.written_eq
    cases hwl : waitLoop 0 (sendRequest s) with
    | mk flag s1 =>
      rw [hwl] at hframe
      cases flag with
      | false =>
        have : readCO2UART w s = (STATUS_NO_RESPONSE, s1) := by
          simp [readCO2UART, hser, hready, hwl]
        rw [this, ← hsent, ← hframe]
      | true =>
        rw [readCO2UART_of_wait w s s1 hser hready hwl, readResponse_written, ← hsent,
          ← hframe]
  · simp [setCO2ABCmode, hser, hready, write, delay]
  · simp [setCO2ABCmode, hser, hready, write, delay]
  · simp [setCO2background, hser, hready, write, delay]
  · rw [getCheckSum_eq s _ hser]; rfl
  · rw [getCheckSum_eq s _ hser]; rfl
  · rw [getCheckSum_eq s _ hser]; rfl
  · rw [getCheckSum_eq s _ hser]; rfl

theorem fixed_command_frames_witness :
    (readCO2UART 32 idle14).2._serial.written
        = idle14._serial.written ++ [[0xFF, 0x01, 0x86, 0x00, 0x00, 0x00, 0x00, 0x00, 0x79]]
    ∧ (setCO2ABCmode 32 true idle14).2._serial.written
        = idle14._serial.written ++ [[0xFF, 0x01, 0x79, 0xA0, 0x00, 0x00, 0x00, 0x00, 0xE6]]
    ∧ (setCO2ABCmode 32 false idle14).2._serial.written
        = idle14._serial.written ++ [[0xFF, 0x01, 0x79, 0x00, 0x00, 0x00, 0x00, 0x00, 0x86]]
    ∧ (setCO2background 32 idle14).2._serial.written
        = idle14._serial.written ++ [[0xFF, 0x01, 0x87, 0x00, 0x00, 0x00, 0x00, 0x00, 0x78]]
    ∧ getCheckSum idle14 [0xFF, 0x01, 0x86, 0x00, 0x00, 0x00, 0x00, 0x00, 0x79] = 0x79
    ∧ getCheckSum idle14 [0xFF, 0x01, 0x79, 0xA0, 0x00, 0x00, 0x00, 0x00, 0xE6] = 0xE6
    ∧ getCheckSum idle14 [0xFF, 0x01, 0x79, 0x00, 0x00, 0x00, 0x00, 0x00, 0x86] = 0x86
    ∧ getCheckSum idle14 [0xFF, 0x01, 0x87, 0x00, 0x00, 0x00, 0x00, 0x00, 0x78] = 0x78 :=
  fixed_command_frames 32 idle14 rfl (by decide)

/-- C3: for `1000 ≤ span_ppm ≤ 5000`, with serial configured and the sensor ready,
`setCO2span` hands exactly one block of nine bytes `FF 01 88 hi lo 00 00 00 ck` to
`write`, where `hi = span_ppm div 256`, `lo = span_ppm mod 256` (so
`256 * hi + lo = span_ppm`) and `ck` is `getCheckSum` of that frame; for 2000 the payload
bytes are 7 and 208. -/
theorem setCO2span_frame (w : Nat) (span_ppm : Int) (s : State)
    (hlo : 1000 ≤ span_ppm) (hhi : span_ppm ≤ 5000)
    (hser : s.SerialConfigured = true) (hready : isReady w s = true) :
    ∃ hi lo ck : Nat,
      (setCO2span w span_ppm s).2._serial.written
          = s._serial.written ++ [[0xFF, 0x01, 0x88, hi, lo, 0x00, 0x00, 0x00, ck]]
      ∧ (hi : Int) = span_ppm / 256 ∧ (lo : Int) = span_ppm % 256
      ∧ 256 * (hi : Int) + lo = span_ppm
      ∧ ck = getCheckSum s [0xFF, 0x01, 0x88, hi, lo, 0x00, 0x00, 0x00, ck]
      ∧ (span_ppm = 2000 → hi = 7 ∧ lo = 208) := by
  obtain ⟨n, rfl⟩ := Int.eq_ofNat_of_zero_le (by omega : 0 ≤ span_ppm)
  have hrange : ¬ ((n : Int) < 1000 ∨ (n : Int) > 5000) := by omega
  refine ⟨n / 256, n % 256, getCheckSum s [0xFF, 0x01, 0x88, n / 256, n % 256, 0, 0, 0, 0],
    ?_, ?_, ?_, ?_, ?_, ?_⟩
  · have h1 : toByte (Int.tdiv (n : Int) 256) = n / 256 := by
      rw [Int.tdiv_eq_ediv (by omega) (by norm_num)]
      simp only [toByte]
      omega
    have h2 : toByte (Int.tmod (n : Int) 256) = n % 256 := by
      rw [Int.tmod_eq_emod (by omega) (by norm_num)]
      simp only [toByte]
      omega
    simp only [setCO2span, hrange, hser, hready, if_false, Bool.not_true, Bool.false_eq_true,
      h1, h2]
    simp [write, delay]
  · norm_cast
  · norm_cast
  · omega
  · rw [getCheckSum_eq s _ hser, getCheckSum_eq s _ hser]
    rfl
  · intro h
    omega

theorem setCO2span_frame_witness :
    ∃ hi lo ck : Nat,
      (setCO2span 32 2000 idle14).2._serial.written
          = idle14._serial.written ++ [[0xFF, 0x01, 0x88, hi, lo, 0x00, 0x00, 0x00, ck]]
      ∧ (hi : Int) = 2000 / 256 ∧ (lo : Int) = 2000 % 256
      ∧ 256 * (hi : Int) + lo = 2000
      ∧ ck = getCheckSum idle14 [0xFF, 0x01, 0x88, hi, lo, 0x00, 0x00, 0x00, ck]
      ∧ ((2000 : Int) = 2000 → hi = 7 ∧ lo = 208) :=
  setCO2span_frame 32 2000 idle14 (by decide) (by decide) rfl (by decide)

/-- C4: for `span_ppm < 1000` or `span_ppm > 5000` (so for 500 and for 6000), in every
state, `setCO2span` returns `STATUS_BAD_SPAN_VALUE`, which is −8, and leaves the whole
state as it was: nothing is written and `lastRequest` is unchanged. -/
theorem setCO2span_bad_value (w : Nat) (span_ppm : Int) (s : State)
    (hbad : span_ppm < 1000 ∨ span_ppm > 5000) :
    setCO2span w span_ppm s = (some STATUS_BAD_SPAN_VALUE, s)
    ∧ STATUS_BAD_SPAN_VALUE = -8
    ∧ (setCO2span w span_ppm s).2._serial.written = s._serial.written
    ∧ (setCO2span w span_ppm s).2.lastRequest = s.lastRequest := by
  have h : setCO2span w span_ppm s = (some STATUS_BAD_SPAN_VALUE, s) := by
    simp [setCO2span, hbad]
  rw [h]
  exact ⟨rfl, rfl, rfl, rfl⟩

theorem setCO2span_bad_value_witness :
    (setCO2span 32 500 idle14 = (some STATUS_BAD_SPAN_VALUE, idle14)
      ∧ STATUS_BAD_SPAN_VALUE = -8
      ∧ (setCO2span 32 500 idle14).2._serial.written = idle14._serial.written
      ∧ (setCO2span 32 500 idle14).2.lastRequest = idle14.lastRequest)
    ∧ (setCO2span 16 6000 { idle14 with SerialConfigured := false, clock := 5 }
          = (some STATUS_BAD_SPAN_VALUE, { idle14 with SerialConfigured := false, clock := 5 })
      ∧ STATUS_BAD_SPAN_VALUE = -8
      ∧ (setCO2span 16 6000 { idle14 with SerialConfigured := false, clock := 5 }).2._serial.written
          = idle14._serial.written
      ∧ (setCO2span 16 6000 { idle14 with SerialConfigured := false, clock := 5 }).2.lastRequest
          = idle14.lastRequest) :=
  ⟨setCO2span_bad_value 32 500 idle14 (Or.inl (by decide)),
    setCO2span_bad_value 16 6000 _ (Or.inr (by decide))⟩
/-! ## Decoding a response -/

theorem getCheckSum_congr (s t : State) (p : List Nat)
    (h : t.SerialConfigured = s.SerialConfigured) : getCheckSum t p = getCheckSum s p := by
  simp only [getCheckSum, h]

theorem decodeResponse_good (w : Nat) (r : List Nat) (s : State)
    (h8 : r.getD 8 0 = getCheckSum s r) :
    decodeResponse w r s =
      (wrapInt w (wrapInt w (256 * (r.getD 2 0 : Int)) + r.getD 3 0),
        flush { s with temperature := wrapInt w ((r.getD 4 0 : Int) - 40) }) := by
  simp only [decodeResponse, ne_eq, h8, not_true_eq_false, if_false]

theorem decodeResponse_bad (w : Nat) (r : List Nat) (s : State)
    (h8 : r.getD 8 0 ≠ getCheckSum s r) :
    decodeResponse w r s =
      (STATUS_CHECKSUM_MISMATCH, flush { s with temperature := STATUS_CHECKSUM_MISMATCH }) := by
  simp only [decodeResponse, ne_eq, h8, not_false_eq_true, if_true]

/-- C5: when the wait loop ends with `pre ++ f` on the line, where no byte of `pre` is
`0xFF` and `f` is a nine-byte frame that starts with `0xFF` and carries its own checksum,
`readCO2UART` (serial configured, sensor ready, `int` of at least 17 bits) skips exactly
the bytes of `pre`, consumes `f`, returns `256 * f[2] + f[3]` and caches `f[4] − 40` as
temperature. -/
theorem readCO2UART_resync_decode (w : Nat) (s s1 : State) (pre f : List Nat)
    (hw : 17 ≤ w) (hser : s.SerialConfigured = true) (hready : isReady w s = true)
    (hwait : waitLoop 0 (sendRequest s) = (true, s1))
    (hrx : s1._serial.rx = pre ++ f)
    (hpre : ∀ b ∈ pre, b < 256 ∧ b ≠ 0xFF)
    (hlen : f.length = 9) (hbytes : ∀ b ∈ f, b < 256)
    (h0 : f.getD 0 0 = 0xFF) (h8 : f.getD 8 0 = getCheckSum s f) :
    (readCO2UART w s).1 = 256 * (f.getD 2 0 : Int) + f.getD 3 0
    ∧ (readCO2UART w s).2.temperature = (f.getD 4 0 : Int) - 40
    ∧ (readCO2UART w s).2.skipped = s.skipped ++ pre
    ∧ (readCO2UART w s).2._serial.rx = [] := by
  have hfr := (waitLoop_frame 0 (sendRequest s)).1
  rw [hwait] at hfr
  have hser1 : s1.SerialConfigured = s.SerialConfigured := hfr.serial_eq
  have hsk1 : s1.skipped = s.skipped := hfr.skipped_eq
  have hres : resyncLoop s1._serial.rx s1.skipped = (f, s.skipped ++ pre) := by
    rw [hrx, hsk1]
    exact resyncLoop_append pre f s.skipped hpre h0
  have hres1 : (resyncLoop s1._serial.rx s1.skipped).1 = f ++ [] := by
    rw [hres, List.append_nil]
  rw [readCO2UART_of_wait w s s1 hser hready hwait, readResponse_full w s1 f [] hres1 hlen,
    decodeResponse_good w f _ (by rw [h8]; exact (getCheckSum_congr s _ f hser1).symm), hres]
  obtain ⟨a0, a1, a2, a3, a4, a5, a6, a7, a8, rfl⟩ := length_nine f hlen
  have h2 : a2 < 256 := hbytes a2 (by simp)
  have h3 : a3 < 256 := hbytes a3 (by simp)
  have h4 : a4 < 256 := hbytes a4 (by simp)
  have e1 : wrapInt w (256 * (a2 : Int)) = 256 * (a2 : Int) :=
    wrapInt_of_lt w 16 _ hw (by norm_num; omega) (by norm_num; omega)
  have e2 : wrapInt w (256 * (a2 : Int) + a3) = 256 * (a2 : Int) + a3 :=
    wrapInt_of_lt w 16 _ hw (by norm_num; omega) (by norm_num; omega)
  have e3 : wrapInt w ((a4 : Int) - 40) = (a4 : Int) - 40 :=
    wrapInt_of_lt w 16 _ hw (by norm_num; omega) (by norm_num; omega)
  simp [flush, e1, e2, e3]

theorem readCO2UART_resync_decode_witness :
    (readCO2UART 32 strayThenFrame).1 = 256 * ((goodFrame.getD 2 0 : Nat) : Int) + goodFrame.getD 3 0
    ∧ (readCO2UART 32 strayThenFrame).2.temperature = ((goodFrame.getD 4 0 : Nat) : Int) - 40
    ∧ (readCO2UART 32 strayThenFrame).2.skipped = strayThenFrame.skipped ++ [0x12, 0x34]
    ∧ (readCO2UART 32 strayThenFrame).2._serial.rx = [] :=
  readCO2UART_resync_decode 32 strayThenFrame
    (delay 100 (delay 100 (sendRequest strayThenFrame))) [0x12, 0x34] goodFrame
    (by decide) rfl (by decide)
    (by
      rw [waitLoop, if_pos (by decide), if_neg (by decide)]
      rw [waitLoop, if_pos (by decide), if_neg (by decide)]
      rw [waitLoop, if_neg (by decide)])
    rfl (by decide) rfl (by decide) rfl (by decide)
/-- C6, as the claim states it, fails: with the ten bytes `12 34 FF 01 86 01 90 00 00 79`
on the line only eight bytes follow the two stray ones, and `readCO2UART` returns
`STATUS_INCOMPLETE` (−4), not 400. -/
theorem readCO2UART_strayStream_not_400 :
    strayStream.SerialConfigured = true ∧ isReady 32 strayStream = true
    ∧ (readCO2UART 32 strayStream).1 = -4
    ∧ ¬ (readCO2UART 32 strayStream).1 = 400 := by
  have h : readCO2UART 32 strayStream = readResponse 32 (sendRequest strayStream) :=
    readCO2UART_of_wait 32 strayStream _ rfl (by decide)
      (waitLoop_available _ _ (by decide))
  rw [h]
  decide

/-- C6, amended: when the wait loop ends with the ten bytes
`12 34 FF 01 86 01 90 00 00 79` on the line, `readCO2UART` (serial configured, sensor
ready) skips the two stray bytes `12 34` and, only eight bytes being left from the `0xFF`
on, returns `STATUS_INCOMPLETE` (−4) after one `flush()`. -/
theorem readCO2UART_stray_stream (w : Nat) (s s1 : State)
    (hser : s.SerialConfigured = true) (hready : isReady w s = true)
    (hwait : waitLoop 0 (sendRequest s) = (true, s1))
    (hrx : s1._serial.rx = [0x12, 0x34, 0xFF, 0x01, 0x86, 0x01, 0x90, 0x00, 0x00, 0x79]) :
    (readCO2UART w s).2.skipped = s.skipped ++ [0x12, 0x34]
    ∧ (readCO2UART w s).1 = STATUS_INCOMPLETE ∧ STATUS_INCOMPLETE = -4
    ∧ (readCO2UART w s).2._serial.flushes = s._serial.flushes + 1 := by
  have hfr := waitLoop_frame 0 (sendRequest s)
  rw [hwait] at hfr
  have hsk1 : s1.skipped = s.skipped := hfr.1.skipped_eq
  have hfl1 : s1._serial.flushes = s._serial.flushes := by
    have := hfr.2.1
    simpa [sendRequest, write] using this
  have hres : resyncLoop s1._serial.rx s1.skipped
      = ([0xFF, 0x01, 0x86, 0x01, 0x90, 0x00, 0x00, 0x79], s.skipped ++ [0x12, 0x34]) := by
    rw [hrx, hsk1]
    simp [resyncLoop]
  have hshort := readResponse_short w s1 (by rw [hres]; simp)
  rw [readCO2UART_of_wait w s s1 hser hready hwait, hshort.1, hshort.2.1, hshort.2.2, hres,
    hfl1]
  exact ⟨rfl, rfl, rfl, rfl⟩

theorem readCO2UART_stray_stream_witness :
    (readCO2UART 32 strayStream).2.skipped = strayStream.skipped ++ [0x12, 0x34]
    ∧ (readCO2UART 32 strayStream).1 = STATUS_INCOMPLETE ∧ STATUS_INCOMPLETE = -4
    ∧ (readCO2UART 32 strayStream).2._serial.flushes = strayStream._serial.flushes + 1 :=
  readCO2UART_stray_stream 32 strayStream (sendRequest strayStream) rfl (by decide)
    (waitLoop_available _ _ (by decide)) rfl

/-! ## The time-out of the wait loop -/

/-- The wait loop entered with `waited = 12 - n` gives up exactly after `n` further
polls that all see an empty line. -/
theorem waitLoop_gives_up (n : Nat) (waited : Int) (s : State) (hn : waited + (n + 1) = 12)
    (h0 : 0 ≤ waited)
    (hquiet : ∀ k < n + 1, available ((delay 100)^[k] s) = 0) :
    waitLoop waited s = (false, flush ((delay 100)^[n + 1] s)) := by
  induction n generalizing waited s with
  | zero =>
    have hs : available s = 0 := hquiet 0 (by norm_num)
    rw [waitLoop, if_pos hs, if_pos (by omega)]
    rfl
  | succ n ih =>
    have hs : available s = 0 := hquiet 0 (by norm_num)
    rw [waitLoop, if_pos hs, if_neg (by omega)]
    rw [ih (waited + 1) (delay 100 s) (by omega) (by omega)
      (fun k hk => by simpa [Function.iterate_succ_apply] using hquiet (k + 1) (by omega))]
    rfl

/-- Twelve polls of an empty line are what it takes for `readCO2UART` to give up. -/
theorem readCO2UART_no_response (w : Nat) (s : State)
    (hser : s.SerialConfigured = true) (hready : isReady w s = true)
    (hquiet : ∀ k < 12, available ((delay 100)^[k] (sendRequest s)) = 0) :
    readCO2UART w s = (STATUS_NO_RESPONSE, flush ((delay 100)^[12] (sendRequest s))) := by
  have h := waitLoop_gives_up 11 0 (sendRequest s) (by norm_num) (by norm_num) hquiet
  simp [readCO2UART, hser, hready, h]

/-- C7, the code at the failing input: on `lateFrame` each of the first eleven calls of
`available()` returns 0, the frame arrives during the eleventh `delay(100)`, and
`readCO2UART` does not give up with `STATUS_NO_RESPONSE`: it reads the frame and returns
400 ppm. -/
theorem readCO2UART_lateFrame :
    lateFrame.SerialConfigured = true ∧ isReady 32 lateFrame = true
    ∧ (∀ k < 11, available ((delay 100)^[k] (sendRequest lateFrame)) = 0)
    ∧ (readCO2UART 32 lateFrame).1 = 400
    ∧ (readCO2UART 32 lateFrame).1 ≠ STATUS_NO_RESPONSE
    ∧ (readCO2UART 32 lateFrame).2.temperature = 27
    ∧ (readCO2UART 32 lateFrame).2._serial.rx = [] := by
  have hwait : waitLoop 0 (sendRequest lateFrame)
      = (true, (delay 100)^[11] (sendRequest lateFrame)) := by
    rw [waitLoop, if_pos (by decide), if_neg (by decide)]
    rw [waitLoop, if_pos (by decide), if_neg (by decide)]
    rw [waitLoop, if_pos (by decide), if_neg (by decide)]
    rw [waitLoop, if_pos (by decide), if_neg (by decide)]
    rw [waitLoop, if_pos (by decide), if_neg (by decide)]
    rw [waitLoop, if_pos (by decide), if_neg (by decide)]
    rw [waitLoop, if_pos (by decide), if_neg (by decide)]
    rw [waitLoop, if_pos (by decide), if_neg (by decide)]
    rw [waitLoop, if_pos (by decide), if_neg (by decide)]
    rw [waitLoop, if_pos (by decide), if_neg (by decide)]
    rw [waitLoop, if_pos (by decide), if_neg (by decide)]
    rw [waitLoop, if_neg (by decide)]
    rfl
  have h : readCO2UART 32 lateFrame
      = readResponse 32 ((delay 100)^[11] (sendRequest lateFrame)) :=
    readCO2UART_of_wait 32 lateFrame _ rfl (by decide) hwait
  rw [h]
  decide
/-! ## Incomplete and corrupted responses -/

theorem dropWhile_byte (l : List Nat) (h : ∀ b ∈ l, b < 256) :
    l.dropWhile (fun b => decide (b % 256 ≠ 0xFF)) = l.dropWhile (fun b => decide (b ≠ 0xFF)) := by
  induction l with
  | nil => rfl
  | cons a rest ih =>
    have ha : a % 256 = a := Nat.mod_eq_of_lt (h a (by simp))
    simp only [List.dropWhile_cons, ha]
    rw [ih (fun b hb => h b (by simp [hb]))]

/-- C8: when the wait loop ends (so at least one byte is available) and fewer than nine
bytes are on the line from the first `0xFF` on (none at all when every byte is a stray
one), `readCO2UART` returns `STATUS_INCOMPLETE` (−4) and `flush()` has been called exactly
once during the call. -/
theorem readCO2UART_incomplete (w : Nat) (s s1 : State)
    (hser : s.SerialConfigured = true) (hready : isReady w s = true)
    (hwait : waitLoop 0 (sendRequest s) = (true, s1))
    (hbytes : ∀ b ∈ s1._serial.rx, b < 256)
    (hshort : (s1._serial.rx.dropWhile (fun b => decide (b ≠ 0xFF))).length < 9) :
    s1._serial.rx ≠ []
    ∧ (readCO2UART w s).1 = STATUS_INCOMPLETE ∧ STATUS_INCOMPLETE = -4
    ∧ (readCO2UART w s).2._serial.flushes = s._serial.flushes + 1 := by
  have hfr := waitLoop_frame 0 (sendRequest s)
  rw [hwait] at hfr
  have hfl1 : s1._serial.flushes = s._serial.flushes := by
    have := hfr.2.1
    simpa [sendRequest, write] using this
  have hres : (resyncLoop s1._serial.rx s1.skipped).1.length < 9 := by
    rw [resyncLoop_eq, dropWhile_byte _ hbytes]
    exact hshort
  have hsh := readResponse_short w s1 hres
  rw [readCO2UART_of_wait w s s1 hser hready hwait, hsh.1, hsh.2.1, hfl1]
  exact ⟨hfr.2.2 rfl, rfl, rfl, rfl⟩

theorem readCO2UART_incomplete_witness :
    (sendRequest shortLine)._serial.rx ≠ []
    ∧ (readCO2UART 32 shortLine).1 = STATUS_INCOMPLETE ∧ STATUS_INCOMPLETE = -4
    ∧ (readCO2UART 32 shortLine).2._serial.flushes = shortLine._serial.flushes + 1 :=
  readCO2UART_incomplete 32 shortLine (sendRequest shortLine) rfl (by decide)
    (waitLoop_available _ _ (by decide)) (by decide) (by decide)

/-- C9: when the nine bytes `r` that `readCO2UART` reads (the first nine from the first
`0xFF` on) have `r[8] ≠ getCheckSum(r)`, then whatever temperature was cached before, the
call returns `STATUS_CHECKSUM_MISMATCH` (−3) and the cached temperature is −3 afterwards,
so `getLastTemperature` at any later time outside the warm-up returns −3. -/
theorem readCO2UART_checksum_mismatch (w : Nat) (s s1 : State) (pre r rest : List Nat)
    (hser : s.SerialConfigured = true) (hready : isReady w s = true)
    (hwait : waitLoop 0 (sendRequest s) = (true, s1))
    (hrx : s1._serial.rx = pre ++ (r ++ rest))
    (hpre : ∀ b ∈ pre, b < 256 ∧ b ≠ 0xFF)
    (hlen : r.length = 9) (h0 : r.getD 0 0 = 0xFF)
    (hbad : r.getD 8 0 ≠ getCheckSum s r) :
    (readCO2UART w s).1 = STATUS_CHECKSUM_MISMATCH ∧ STATUS_CHECKSUM_MISMATCH = -3
    ∧ (readCO2UART w s).2.temperature = -3
    ∧ ∀ later : Nat, isPreHeating { (readCO2UART w s).2 with clock := later } = false →
        getLastTemperature { (readCO2UART w s).2 with clock := later } = -3 := by
  have hfr := (waitLoop_frame 0 (sendRequest s)).1
  rw [hwait] at hfr
  have hser1 : s1.SerialConfigured = s.SerialConfigured := hfr.serial_eq
  have hsk1 : s1.skipped = s.skipped := hfr.skipped_eq
  have hhead : (r ++ rest).getD 0 0 = 0xFF := by
    obtain ⟨a0, a1, a2, a3, a4, a5, a6, a7, a8, rfl⟩ := length_nine r hlen
    simpa using h0
  have hres : resyncLoop s1._serial.rx s1.skipped = (r ++ rest, s.skipped ++ pre) := by
    rw [hrx, hsk1]
    exact resyncLoop_append pre (r ++ rest) s.skipped hpre hhead
  have hres1 : (resyncLoop s1._serial.rx s1.skipped).1 = r ++ rest := by rw [hres]
  rw [readCO2UART_of_wait w s s1 hser hready hwait, readResponse_full w s1 r rest hres1 hlen,
    decodeResponse_bad w r _ (by rw [getCheckSum_congr s _ r (by exact hser1)]; exact hbad)]
  refine ⟨rfl, rfl, rfl, fun later hpre => ?_⟩
  simp only [getLastTemperature, hpre]
  simp [flush, hser1, hser, STATUS_CHECKSUM_MISMATCH]

theorem readCO2UART_checksum_mismatch_witness :
    badChecksum.temperature = 23
    ∧ ((readCO2UART 32 badChecksum).1 = STATUS_CHECKSUM_MISMATCH ∧ STATUS_CHECKSUM_MISMATCH = -3
      ∧ (readCO2UART 32 badChecksum).2.temperature = -3
      ∧ ∀ later : Nat, isPreHeating { (readCO2UART 32 badChecksum).2 with clock := later } = false →
          getLastTemperature { (readCO2UART 32 badChecksum).2 with clock := later } = -3) :=
  ⟨rfl, readCO2UART_checksum_mismatch 32 badChecksum (sendRequest badChecksum) []
    [0xFF, 0x86, 0x01, 0x90, 0x43, 0x00, 0x00, 0x00, 0xA7] [] rfl (by decide)
    (waitLoop_available _ _ (by decide)) rfl (by decide) rfl rfl (by decide)⟩

/-! ## Readiness -/

theorem responseTime_wide (w : Nat) (hw : 18 ≤ w) :
    MHZ14A_RESPONSE_TIME w = 60000 ∧ MHZ19B_RESPONSE_TIME w = 120000 := by
  have e1 : wrapInt w (60 * 1000) = 60000 :=
    wrapInt_of_lt w 17 _ hw (by norm_num) (by norm_num)
  have e2 : wrapInt w (120 * 1000) = 120000 :=
    wrapInt_of_lt w 17 _ hw (by norm_num) (by norm_num)
  simp only [MHZ14A_RESPONSE_TIME, MHZ19B_RESPONSE_TIME, e1, e2]
  exact ⟨rfl, rfl⟩

/-- C10, as the claim states it, fails: for a type-14 sensor (interval 60000 ms) past the
warm-up, with exactly 60000 ms elapsed since the last request, `isReady()` is false. -/
theorem isReady_false_at_exact_interval :
    onTheMinute._type = 14 ∧ MHZ14A_RESPONSE_TIME 32 = 60000
    ∧ onTheMinute.lastRequest ≤ onTheMinute.clock ∧ onTheMinute.clock < 2 ^ 32
    ∧ millis onTheMinute = onTheMinute.clock
    ∧ ¬ onTheMinute.clock < 180000
    ∧ onTheMinute.clock - onTheMinute.lastRequest = 60000
    ∧ isReady 32 onTheMinute = false := by
  decide

/-- C10, amended: for a known variant (type 14 with interval 60000 ms, type 19 with
120000 ms, warm-up 180000 ms for both; `int` of at least 18 bits), for every time
`t < 2^32` and last-request time `L ≤ t`: `isReady()` is true exactly when `t` has reached
the warm-up duration and `t − L` is greater than the interval. So it is false if `t` is
below the warm-up; otherwise it is false if `t − L` is less than or equal to the interval,
and true if `t − L` is greater than the interval. -/
theorem isReady_known_variant (w : Nat) (s : State) (hw : 18 ≤ w)
    (htype : s._type = 14 ∨ s._type = 19)
    (ht : s.clock < 2 ^ 32) (hL : s.lastRequest ≤ s.clock) :
    MHZ14A_PREHEATING_TIME = 180000 ∧ MHZ19B_PREHEATING_TIME = 180000
    ∧ MHZ14A_RESPONSE_TIME w = 60000 ∧ MHZ19B_RESPONSE_TIME w = 120000
    ∧ millis s = s.clock
    ∧ isReady w s
        = decide (180000 ≤ s.clock
            ∧ (if s._type = 14 then 60000 else 120000) < s.clock - s.lastRequest) := by
  obtain ⟨r14, r19⟩ := responseTime_wide w hw
  have hm : millis s = s.clock := Nat.mod_eq_of_lt ht
  have ht2 : s.clock < 4294967296 := ht
  refine ⟨rfl, rfl, r14, r19, hm, ?_⟩
  rcases htype with h14 | h19
  · simp only [isReady, isPreHeating, h14, hm, r14, MHZ14A, MHZ14A_PREHEATING_TIME, subULong]
    by_cases hwarm : s.clock < 180000
    · simp [hwarm]
    · have e : (s.clock + 4294967296 - 60000 % 4294967296) % 4294967296 = s.clock - 60000 := by
        omega
      simp only [e]
      by_cases hgap : 60000 < s.clock - s.lastRequest
      · have : s.lastRequest < s.clock - 60000 := by omega
        simp [hwarm, hgap, this]
        omega
      · have : ¬ s.lastRequest < s.clock - 60000 := by omega
        simp [hwarm, hgap, this]
  · simp only [isReady, isPreHeating, h19, hm, r19, MHZ14A, MHZ19B, MHZ19B_PREHEATING_TIME,
      subULong]
    by_cases hwarm : s.clock < 180000
    · simp [hwarm]
    · have e : (s.clock + 4294967296 - 120000 % 4294967296) % 4294967296
          = s.clock - 120000 := by
        omega
      simp only [e]
      by_cases hgap : 120000 < s.clock - s.lastRequest
      · have : s.lastRequest < s.clock - 120000 := by omega
        simp [hwarm, hgap, this]
        omega
      · have : ¬ s.lastRequest < s.clock - 120000 := by omega
        simp [hwarm, hgap, this]

theorem isReady_known_variant_witness :
    MHZ14A_PREHEATING_TIME = 180000 ∧ MHZ19B_PREHEATING_TIME = 180000
    ∧ MHZ14A_RESPONSE_TIME 32 = 60000 ∧ MHZ19B_RESPONSE_TIME 32 = 120000
    ∧ millis pastTheInterval19 = pastTheInterval19.clock
    ∧ isReady 32 pastTheInterval19
        = decide (180000 ≤ pastTheInterval19.clock
            ∧ (if pastTheInterval19._type = 14 then 60000 else 120000)
                < pastTheInterval19.clock - pastTheInterval19.lastRequest) :=
  isReady_known_variant 32 pastTheInterval19 (by decide) (Or.inr rfl) (by decide) (by decide)


/-! ## Readiness along a simulated clock -/

/-- For a known variant and an `int` of at least 18 bits, `isReady()` in terms of
`millis()` and `lastRequest`. -/
theorem isReady_eq_of_known (w : Nat) (s : State) (hw : 18 ≤ w)
    (htype : s._type = 14 ∨ s._type = 19) :
    isReady w s
      = decide (180000 ≤ millis s
          ∧ s.lastRequest + (if s._type = 14 then 60000 else 120000) < millis s) := by
  obtain ⟨r14, r19⟩ := responseTime_wide w hw
  have hm : millis s < 4294967296 := Nat.mod_lt _ (by norm_num)
  rcases htype with h14 | h19
  · simp only [isReady, isPreHeating, h14, r14, MHZ14A, MHZ14A_PREHEATING_TIME, subULong]
    by_cases hwarm : millis s < 180000
    · simp [hwarm]
    · have e : (millis s + 4294967296 - 60000 % 4294967296) % 4294967296
          = millis s - 60000 := by
        omega
      simp only [e]
      by_cases hgap : s.lastRequest + 60000 < millis s
      · have : s.lastRequest < millis s - 60000 := by omega
        simp [hwarm, hgap, this]
        omega
      · have : ¬ s.lastRequest < millis s - 60000 := by omega
        simp [hwarm, hgap, this]
  · simp only [isReady, isPreHeating, h19, r19, MHZ14A, MHZ19B, MHZ19B_PREHEATING_TIME,
      subULong]
    by_cases hwarm : millis s < 180000
    · simp [hwarm]
    · have e : (millis s + 4294967296 - 120000 % 4294967296) % 4294967296
          = millis s - 120000 := by
        omega
      simp only [e]
      by_cases hgap : s.lastRequest + 120000 < millis s
      · have : s.lastRequest < millis s - 120000 := by omega
        simp [hwarm, hgap, this]
        omega
      · have : ¬ s.lastRequest < millis s - 120000 := by omega
        simp [hwarm, hgap, this]

theorem isPreHeating_eq_of_known (s : State) (htype : s._type = 14 ∨ s._type = 19) :
    isPreHeating s = decide (millis s < 180000) := by
  rcases htype with h | h <;>
    simp [isPreHeating, h, MHZ14A, MHZ19B, MHZ14A_PREHEATING_TIME, MHZ19B_PREHEATING_TIME]

/-- Readiness where `int` has at least 18 bits: for both known variants, with the clock set to any
time `t < 2^32`: at time 0 with `lastRequest = 0` `isPreHeating()` is true; at every
`t ≥ 180000` `isPreHeating()` is false and, with `lastRequest` still 0, `isReady()` is
true; with `lastRequest = t0 ≤ t` and `t − t0` less than the minimum interval of the
variant `isReady()` is false. -/
theorem readiness_on_simulated_clock (w : Nat) (s : State) (t t0 : Nat) (hw : 18 ≤ w)
    (htype : s._type = 14 ∨ s._type = 19) (ht : t < 2 ^ 32) (_ht0 : t0 ≤ t) :
    isPreHeating { s with clock := 0, lastRequest := 0 } = true
    ∧ (180000 ≤ t →
        isPreHeating { s with clock := t } = false
        ∧ isReady w { s with clock := t, lastRequest := 0 } = true)
    ∧ (t - t0 < (if s._type = 14 then 60000 else 120000) →
        isReady w { s with clock := t, lastRequest := t0 } = false) := by
  have hmt : t % 4294967296 = t := Nat.mod_eq_of_lt ht
  refine ⟨?_, fun hwarm => ⟨?_, ?_⟩, fun hgap => ?_⟩
  · rw [isPreHeating_eq_of_known { s with clock := 0, lastRequest := 0 } htype]
    simp [millis]
  · rw [isPreHeating_eq_of_known { s with clock := t } htype]
    simp only [millis, hmt]
    simpa using hwarm
  · rw [isReady_eq_of_known w { s with clock := t, lastRequest := 0 } hw htype]
    simp only [millis, hmt]
    have : (0 : Nat) + (if s._type = 14 then 60000 else 120000) < t := by
      split <;> omega
    simp [hwarm, this]
    split <;> omega
  · rw [isReady_eq_of_known w { s with clock := t, lastRequest := t0 } hw htype]
    simp only [millis, hmt]
    have : ¬ t0 + (if s._type = 14 then 60000 else 120000) < t := by
      split at hgap <;> split <;> omega
    simp [this]

theorem readiness_on_simulated_clock_witness :
    isPreHeating { fresh19 with clock := 0, lastRequest := 0 } = true
    ∧ (180000 ≤ 250000 →
        isPreHeating { fresh19 with clock := 250000 } = false
        ∧ isReady 32 { fresh19 with clock := 250000, lastRequest := 0 } = true)
    ∧ (250000 - 200000 < (if fresh19._type = 14 then 60000 else 120000) →
        isReady 32 { fresh19 with clock := 250000, lastRequest := 200000 } = false) :=
  readiness_on_simulated_clock 32 fresh19 250000 200000 (by decide) (Or.inr rfl) (by decide)
    (by decide)

/-! ## The two gates -/

/-- C12: when serial is not configured (whether or not the sensor is ready) each of
`readCO2UART`, `setCO2ABCmode`, `setCO2background` and `setCO2span` with an in-range span
returns `STATUS_SERIAL_NOT_CONFIGURED` (−7); when serial is configured and `isReady()` is
false each returns `STATUS_NOT_READY` (−5); in both cases the state is returned as it
was: nothing written, no flush, `lastRequest` and the cached temperature unchanged. -/
theorem gates_short_circuit (w : Nat) (s : State) (enable : Bool) (span_ppm : Int)
    (hlo : 1000 ≤ span_ppm) (hhi : span_ppm ≤ 5000)
    (hgate : s.SerialConfigured = false ∨ isReady w s = false) :
    STATUS_SERIAL_NOT_CONFIGURED = -7 ∧ STATUS_NOT_READY = -5
    ∧ readCO2UART w s
        = (if s.SerialConfigured then STATUS_NOT_READY else STATUS_SERIAL_NOT_CONFIGURED, s)
    ∧ setCO2ABCmode w enable s
        = (some (if s.SerialConfigured then STATUS_NOT_READY else STATUS_SERIAL_NOT_CONFIGURED),
            s)
    ∧ setCO2background w s
        = (some (if s.SerialConfigured then STATUS_NOT_READY else STATUS_SERIAL_NOT_CONFIGURED),
            s)
    ∧ setCO2span w span_ppm s
        = (some (if s.SerialConfigured then STATUS_NOT_READY else STATUS_SERIAL_NOT_CONFIGURED),
            s) := by
  have hrange : ¬ (span_ppm < 1000 ∨ span_ppm > 5000) := by omega
  refine ⟨rfl, rfl, ?_, ?_, ?_, ?_⟩
  · by_cases hser : s.SerialConfigured = true
    · have hr : isReady w s = false := by
        rcases hgate with h | h
        · rw [hser] at h; cases h
        · exact h
      simp [readCO2UART, hser, hr]
    · simp [readCO2UART, hser]
  · by_cases hser : s.SerialConfigured = true
    · have hr : isReady w s = false := by
        rcases hgate with h | h
        · rw [hser] at h; cases h
        · exact h
      simp [setCO2ABCmode, hser, hr]
    · simp [setCO2ABCmode, hser]
  · by_cases hser : s.SerialConfigured = true
    · have hr : isReady w s = false := by
        rcases hgate with h | h
        · rw [hser] at h; cases h
        · exact h
      simp [setCO2background, hser, hr]
    · simp [setCO2background, hser]
  · by_cases hser : s.SerialConfigured = true
    · have hr : isReady w s = false := by
        rcases hgate with h | h
        · rw [hser] at h; cases h
        · exact h
      simp [setCO2span, hrange, hser, hr]
    · simp [setCO2span, hrange, hser]

theorem gates_short_circuit_witness :
    (STATUS_SERIAL_NOT_CONFIGURED = -7 ∧ STATUS_NOT_READY = -5
      ∧ readCO2UART 32 { pwmOnly14 with clock := 7 }
          = (if ({ pwmOnly14 with clock := 7 } : State).SerialConfigured
              then STATUS_NOT_READY else STATUS_SERIAL_NOT_CONFIGURED,
            { pwmOnly14 with clock := 7 })
      ∧ setCO2ABCmode 32 true { pwmOnly14 with clock := 7 }
          = (some (if ({ pwmOnly14 with clock := 7 } : State).SerialConfigured
              then STATUS_NOT_READY else STATUS_SERIAL_NOT_CONFIGURED),
            { pwmOnly14 with clock := 7 })
      ∧ setCO2background 32 { pwmOnly14 with clock := 7 }
          = (some (if ({ pwmOnly14 with clock := 7 } : State).SerialConfigured
              then STATUS_NOT_READY else STATUS_SERIAL_NOT_CONFIGURED),
            { pwmOnly14 with clock := 7 })
      ∧ setCO2span 32 2000 { pwmOnly14 with clock := 7 }
          = (some (if ({ pwmOnly14 with clock := 7 } : State).SerialConfigured
              then STATUS_NOT_READY else STATUS_SERIAL_NOT_CONFIGURED),
            { pwmOnly14 with clock := 7 }))
    ∧ (STATUS_SERIAL_NOT_CONFIGURED = -7 ∧ STATUS_NOT_READY = -5
      ∧ readCO2UART 32 onTheMinute
          = (if onTheMinute.SerialConfigured
              then STATUS_NOT_READY else STATUS_SERIAL_NOT_CONFIGURED, onTheMinute)
      ∧ setCO2ABCmode 32 false onTheMinute
          = (some (if onTheMinute.SerialConfigured
              then STATUS_NOT_READY else STATUS_SERIAL_NOT_CONFIGURED), onTheMinute)
      ∧ setCO2background 32 onTheMinute
          = (some (if onTheMinute.SerialConfigured
              then STATUS_NOT_READY else STATUS_SERIAL_NOT_CONFIGURED), onTheMinute)
      ∧ setCO2span 32 5000 onTheMinute
          = (some (if onTheMinute.SerialConfigured
              then STATUS_NOT_READY else STATUS_SERIAL_NOT_CONFIGURED), onTheMinute)) :=
  ⟨gates_short_circuit 32 { pwmOnly14 with clock := 7 } true 2000 (by decide) (by decide)
      (Or.inl rfl),
    gates_short_circuit 32 onTheMinute false 5000 (by decide) (by decide)
      (Or.inr (by decide))⟩

/-! ## The PWM decoder -/

theorem pwmLoop_skip (pre l : List Nat) (hpre : ∀ q ∈ pre, q / 1000 = 0) :
    pwmLoop (pre ++ l) = pwmLoop l := by
  induction pre with
  | nil => rfl
  | cons q rest ih =>
    have hq : q / 1000 = 0 := hpre q (by simp)
    have := ih (fun x hx => hpre x (by simp [hx]))
    simp [pwmLoop, hq, this]

theorem pwmLoop_accept (pulse th : Nat) (rest : List Nat) (hth : pulse / 1000 = th)
    (hlo : 2 ≤ th) (hhi : th ≤ 1004) :
    pwmLoop (pulse :: rest) = some (2 * (th - 2), rest) := by
  have h0 : ¬ th = 0 := by omega
  have hd : subULong (addULong th (subULong 1004 th)) 4 = 1000 := by
    simp only [subULong, addULong]
    omega
  have hn : mulULong 2000 (subULong th 2) = 2000 * (th - 2) := by
    simp only [mulULong, subULong]
    omega
  have e : mulULong 2000 (subULong th 2) / subULong (addULong th (subULong 1004 th)) 4
      = 2 * (th - 2) := by
    rw [hd, hn]
    omega
  simp only [pwmLoop, hth, h0, if_false, e]

/-- What `readCO2PWM` returns for an accepted high-duration of at least 2 ms. -/
theorem readCO2PWM_accept (w : Nat) (s : State) (pre rest : List Nat) (pulse th : Nat)
    (hw : 16 ≤ w) (hpwm : s.PwmConfigured = true) (hpre : ∀ q ∈ pre, q / 1000 = 0)
    (hth : pulse / 1000 = th) (hlo : 2 ≤ th) (hhi : th ≤ 1004) :
    readCO2PWM w (pre ++ pulse :: rest) s = some (((2 * (th - 2) : Nat) : Int), rest) := by
  have e : wrapInt w ((2 * (th - 2) : Nat) : Int) = ((2 * (th - 2) : Nat) : Int) :=
    wrapInt_of_lt w 15 _ hw (by norm_num; omega) (by norm_num; omega)
  simp only [readCO2PWM, hpwm, pwmLoop_skip pre _ hpre, pwmLoop_accept pulse th rest hth hlo hhi,
    e]
  rfl

/-- C13: with PWM configured (`int` of at least 16 bits), when the first accepted
high-duration is `th` with `2 ≤ th ≤ 1004` (earlier measurements with `th = 0` are
repeated), `readCO2PWM` returns `2000 * (th − 2) / (th + tl − 4)` with `tl = 1004 − th`;
the divisor is 1000, so the result is `2 * (th − 2)`; for `th = 502` it is 1000. -/
theorem readCO2PWM_formula (w : Nat) (s : State) (pre rest : List Nat) (pulse th : Nat)
    (hw : 16 ≤ w) (hpwm : s.PwmConfigured = true) (hpre : ∀ q ∈ pre, q / 1000 = 0)
    (hth : pulse / 1000 = th) (hlo : 2 ≤ th) (hhi : th ≤ 1004) :
    readCO2PWM w (pre ++ pulse :: rest) s
        = some (((2000 * (th - 2) / (th + (1004 - th) - 4) : Nat) : Int), rest)
    ∧ th + (1004 - th) - 4 = 1000
    ∧ 2000 * (th - 2) / (th + (1004 - th) - 4) = 2 * (th - 2)
    ∧ (th = 502 → readCO2PWM w (pre ++ pulse :: rest) s = some (1000, rest)) := by
  have hdiv : th + (1004 - th) - 4 = 1000 := by omega
  have hval : 2000 * (th - 2) / (th + (1004 - th) - 4) = 2 * (th - 2) := by
    rw [hdiv]
    omega
  have hres := readCO2PWM_accept w s pre rest pulse th hw hpwm hpre hth hlo hhi
  refine ⟨by rw [hres, hval], hdiv, hval, fun h502 => ?_⟩
  rw [hres, h502]
  rfl

theorem readCO2PWM_formula_witness :
    readCO2PWM 16 ([0, 700] ++ 502999 :: [0]) idle14
        = some (((2000 * (502 - 2) / (502 + (1004 - 502) - 4) : Nat) : Int), [0])
    ∧ 502 + (1004 - 502) - 4 = 1000
    ∧ 2000 * (502 - 2) / (502 + (1004 - 502) - 4) = 2 * (502 - 2)
    ∧ (502 = 502 → readCO2PWM 16 ([0, 700] ++ 502999 :: [0]) idle14 = some (1000, [0])) :=
  readCO2PWM_formula 16 idle14 [0, 700] [0] 502999 502 (by decide) rfl (by decide) (by decide)
    (by decide) (by decide)

/-- C14, the code at the failing input: a high pulse of 1500 µs gives `th = 1`, which
the retry loop accepts; `th − 2` wraps around in `unsigned long`, and `readCO2PWM` returns
4294965 with a 32-bit `int` (−30411 with a 16-bit `int`), which is not in 0..5000. -/
theorem readCO2PWM_th_one :
    idle14.PwmConfigured = true ∧ 1500 / 1000 = 1
    ∧ readCO2PWM 32 [1500] idle14 = some (4294965, [])
    ∧ readCO2PWM 16 [1500] idle14 = some (-30411, [])
    ∧ ¬ ((0 : Int) ≤ 4294965 ∧ (4294965 : Int) ≤ 5000)
    ∧ ¬ ((0 : Int) ≤ -30411 ∧ (-30411 : Int) ≤ 5000) := by
  decide

/-! ## Checksum: what it depends on -/

/-- C16: with serial configured, `getCheckSum` of a nine-byte frame does not depend on
bytes 0 and 8; so writing `c = getCheckSum(f)` into `f[8]` and computing the checksum of
the result gives `c` again. -/
theorem getCheckSum_ignores_ends (s : State) (f : List Nat) (x y : Nat)
    (hser : s.SerialConfigured = true) (hlen : f.length = 9) :
    getCheckSum s ((f.set 0 x).set 8 y) = getCheckSum s f
    ∧ getCheckSum s (f.set 8 (getCheckSum s f)) = getCheckSum s f := by
  obtain ⟨a0, a1, a2, a3, a4, a5, a6, a7, a8, rfl⟩ := length_nine f hlen
  constructor
  · rw [getCheckSum_eq s _ hser, getCheckSum_eq s _ hser]
    rfl
  · rw [getCheckSum_eq s (List.set _ 8 _) hser]
    rw [getCheckSum_eq s [a0, a1, a2, a3, a4, a5, a6, a7, a8] hser]
    rfl

theorem getCheckSum_ignores_ends_witness :
    getCheckSum idle14 ((goodFrame.set 0 0x11).set 8 0x22) = getCheckSum idle14 goodFrame
    ∧ getCheckSum idle14 (goodFrame.set 8 (getCheckSum idle14 goodFrame))
        = getCheckSum idle14 goodFrame :=
  getCheckSum_ignores_ends idle14 goodFrame 0x11 0x22 rfl rfl

/-- C17, as the claim states it, fails: on the same packet `getCheckSum` returns `0x79`
in a state with `SerialConfigured` true and 249 in a state with `SerialConfigured`
false. -/
theorem getCheckSum_depends_on_flag :
    idle14.SerialConfigured = true ∧ pwmOnly14.SerialConfigured = false
    ∧ getCheckSum idle14 [0xFF, 0x01, 0x86, 0, 0, 0, 0, 0, 0x79] = 0x79
    ∧ getCheckSum pwmOnly14 [0xFF, 0x01, 0x86, 0, 0, 0, 0, 0, 0x79] = 249
    ∧ getCheckSum idle14 [0xFF, 0x01, 0x86, 0, 0, 0, 0, 0, 0x79]
        ≠ getCheckSum pwmOnly14 [0xFF, 0x01, 0x86, 0, 0, 0, 0, 0, 0x79] := by
  decide

/-- C17, amended: the result of `getCheckSum` on a nine-byte packet is a byte that is
determined by the packet bytes and the flag `SerialConfigured`: two calls on the same
packet in two states that agree on `SerialConfigured` (whatever `PwmConfigured`, `debug`
and the rest are) return the same byte; with `SerialConfigured` false the guard returns
`STATUS_SERIAL_NOT_CONFIGURED` as a byte, 249, for every packet. -/
theorem getCheckSum_determined_by (s t : State) (p : List Nat) (_hlen : p.length = 9)
    (hflag : t.SerialConfigured = s.SerialConfigured) :
    getCheckSum t p = getCheckSum s p
    ∧ getCheckSum s p < 256
    ∧ (s.SerialConfigured = false → getCheckSum s p = 249) := by
  have hoff : s.SerialConfigured = false → getCheckSum s p = 249 := by
    intro h
    simp only [getCheckSum, h, Bool.not_false, if_true]
    rfl
  refine ⟨getCheckSum_congr s t p hflag, ?_, hoff⟩
  by_cases h : s.SerialConfigured = true
  · rw [getCheckSum_eq s p h]
    omega
  · rw [hoff (by simpa using h)]
    norm_num

theorem getCheckSum_determined_by_witness :
    getCheckSum { idle14 with PwmConfigured := false, debug := true, clock := 9 } goodFrame
        = getCheckSum idle14 goodFrame
    ∧ getCheckSum idle14 goodFrame < 256
    ∧ (idle14.SerialConfigured = false → getCheckSum idle14 goodFrame = 249) :=
  getCheckSum_determined_by idle14 { idle14 with PwmConfigured := false, debug := true, clock := 9 }
    goodFrame rfl rfl

/-! ## Constructors -/

theorem constructAll_serial (cs : List Ctor) (s : State) :
    (constructAll cs s).SerialConfigured = false
      ↔ s.SerialConfigured = false ∨ ∃ pwmpin type, Ctor.pwm pwmpin type ∈ cs := by
  induction cs generalizing s with
  | nil => simp [constructAll]
  | cons c rest ih =>
    have hstep : constructAll (c :: rest) s = constructAll rest (construct c s) := rfl
    rw [hstep, ih]
    cases c with
    | pwm p ty =>
      simp only [construct, true_or, true_iff]
      exact Or.inr ⟨p, ty, List.mem_cons_self _ _⟩
    | _ => simp [construct]

theorem constructAll_pwm (cs : List Ctor) (s : State) :
    (constructAll cs s).PwmConfigured = false
      ↔ s.PwmConfigured = false
        ∨ (∃ rxpin txpin type line, Ctor.pins rxpin txpin type line ∈ cs)
        ∨ (∃ serial type, Ctor.stream serial type ∈ cs) := by
  induction cs generalizing s with
  | nil => simp [constructAll]
  | cons c rest ih =>
    have hstep : constructAll (c :: rest) s = constructAll rest (construct c s) := rfl
    rw [hstep, ih]
    cases c with
    | pins rx tx ty line =>
      simp only [construct, true_or, true_iff]
      exact Or.inr (Or.inl ⟨rx, tx, ty, line, List.mem_cons_self _ _⟩)
    | stream serial ty =>
      simp only [construct, true_or, true_iff]
      exact Or.inr (Or.inr ⟨serial, ty, List.mem_cons_self _ _⟩)
    | _ => simp [construct]

/-- C18, as the claim states it, fails: constructing a serial-only object and then a
PWM-only object from the initial globals leaves `SerialConfigured` and `PwmConfigured`
both false. -/
theorem both_flags_cleared :
    (initialGlobals idle14).SerialConfigured = true
    ∧ (initialGlobals idle14).PwmConfigured = true
    ∧ serialThenPwm ≠ []
    ∧ (constructAll serialThenPwm (initialGlobals idle14)).SerialConfigured = false
    ∧ (constructAll serialThenPwm (initialGlobals idle14)).PwmConfigured = false
    ∧ ¬ ((constructAll serialThenPwm (initialGlobals idle14)).SerialConfigured = true
        ∨ (constructAll serialThenPwm (initialGlobals idle14)).PwmConfigured = true) := by
  decide

/-- C18, amended: after a single constructor call on the initial globals at least one of
`SerialConfigured` and `PwmConfigured` is true. After a sequence of constructor calls
`SerialConfigured` is false exactly when the PWM-only constructor `MHZ(pwmpin, type)` has
been called, and `PwmConfigured` is false exactly when one of the two serial-only
constructors has been called; so at least one flag is true exactly when the sequence
does not contain both a PWM-only and a serial-only constructor call. -/
theorem configuration_after_constructors (s : State) (cs : List Ctor) (c : Ctor) :
    ((construct c (initialGlobals s)).SerialConfigured = true
      ∨ (construct c (initialGlobals s)).PwmConfigured = true)
    ∧ ((constructAll cs (initialGlobals s)).SerialConfigured = false
        ↔ ∃ pwmpin type, Ctor.pwm pwmpin type ∈ cs)
    ∧ ((constructAll cs (initialGlobals s)).PwmConfigured = false
        ↔ (∃ rxpin txpin type line, Ctor.pins rxpin txpin type line ∈ cs)
          ∨ (∃ serial type, Ctor.stream serial type ∈ cs))
    ∧ (((constructAll cs (initialGlobals s)).SerialConfigured = true
        ∨ (constructAll cs (initialGlobals s)).PwmConfigured = true)
        ↔ ¬ ((∃ pwmpin type, Ctor.pwm pwmpin type ∈ cs)
            ∧ ((∃ rxpin txpin type line, Ctor.pins rxpin txpin type line ∈ cs)
              ∨ (∃ serial type, Ctor.stream serial type ∈ cs)))) := by
  have h1 : (constructAll cs (initialGlobals s)).SerialConfigured = false
      ↔ ∃ pwmpin type, Ctor.pwm pwmpin type ∈ cs := by
    rw [constructAll_serial]
    simp [initialGlobals]
  have h2 : (constructAll cs (initialGlobals s)).PwmConfigured = false
      ↔ (∃ rxpin txpin type line, Ctor.pins rxpin txpin type line ∈ cs)
        ∨ (∃ serial type, Ctor.stream serial type ∈ cs) := by
    rw [constructAll_pwm]
    simp [initialGlobals]
  refine ⟨?_, h1, h2, ?_⟩
  · cases c <;> simp [construct, initialGlobals]
  · rw [← h1, ← h2]
    cases (constructAll cs (initialGlobals s)).SerialConfigured <;>
      cases (constructAll cs (initialGlobals s)).PwmConfigured <;> simp

/-! ## The checksum test -/

/-- C20: with serial configured, for every nine-byte response `r` the checksum test of
`readCO2UART` accepts `r`, that is `r[8] = getCheckSum(r)`, exactly when
`r[1] + ... + r[8]` is 0 modulo 256; so for given bytes 1..7 exactly one byte value of
`r[8]` is accepted, and changing a single one of bytes 1..8 of an accepted frame makes it
rejected. -/
theorem checksum_test_iff (s : State) (r : List Nat) (hser : s.SerialConfigured = true)
    (hlen : r.length = 9) (hbytes : ∀ b ∈ r, b < 256) :
    (r.getD 8 0 = getCheckSum s r
      ↔ (r.getD 1 0 + r.getD 2 0 + r.getD 3 0 + r.getD 4 0 + r.getD 5 0 + r.getD 6 0
          + r.getD 7 0 + r.getD 8 0) % 256 = 0)
    ∧ (∃! c, c < 256 ∧ (r.set 8 c).getD 8 0 = getCheckSum s (r.set 8 c))
    ∧ (r.getD 8 0 = getCheckSum s r →
        ∀ i v, 1 ≤ i → i ≤ 8 → v < 256 → v ≠ r.getD i 0 →
          (r.set i v).getD 8 0 ≠ getCheckSum s (r.set i v)) := by
  obtain ⟨a0, a1, a2, a3, a4, a5, a6, a7, a8, rfl⟩ := length_nine r hlen
  have h1 : a1 < 256 := hbytes a1 (by simp)
  have h2 : a2 < 256 := hbytes a2 (by simp)
  have h3 : a3 < 256 := hbytes a3 (by simp)
  have h4 : a4 < 256 := hbytes a4 (by simp)
  have h5 : a5 < 256 := hbytes a5 (by simp)
  have h6 : a6 < 256 := hbytes a6 (by simp)
  have h7 : a7 < 256 := hbytes a7 (by simp)
  have h8 : a8 < 256 := hbytes a8 (by simp)
  refine ⟨?_, ?_, ?_⟩
  · rw [getCheckSum_eq s _ hser]
    simp only [List.getD_cons_succ, List.getD_cons_zero]
    omega
  · refine ⟨getCheckSum s [a0, a1, a2, a3, a4, a5, a6, a7, a8], ⟨?_, ?_⟩, ?_⟩
    · rw [getCheckSum_eq s _ hser]
      omega
    · rw [getCheckSum_eq s (List.set _ 8 _) hser, getCheckSum_eq s _ hser]
      rfl
    · rintro c ⟨_, hc⟩
      rw [getCheckSum_eq s (List.set _ 8 _) hser] at hc
      rw [getCheckSum_eq s _ hser]
      exact hc
  · intro hacc i v hi1 hi8 hv hne
    rw [getCheckSum_eq s _ hser] at hacc
    rw [getCheckSum_eq s _ hser]
    simp only [List.getD_cons_succ, List.getD_cons_zero] at hacc
    interval_cases i <;>
      simp only [List.set, List.getD_cons_succ, List.getD_cons_zero] at hne ⊢ <;> omega

theorem checksum_test_iff_witness :
    (goodFrame.getD 8 0 = getCheckSum idle14 goodFrame
      ↔ (goodFrame.getD 1 0 + goodFrame.getD 2 0 + goodFrame.getD 3 0 + goodFrame.getD 4 0
          + goodFrame.getD 5 0 + goodFrame.getD 6 0 + goodFrame.getD 7 0
          + goodFrame.getD 8 0) % 256 = 0)
    ∧ (∃! c, c < 256 ∧ (goodFrame.set 8 c).getD 8 0 = getCheckSum idle14 (goodFrame.set 8 c))
    ∧ (goodFrame.getD 8 0 = getCheckSum idle14 goodFrame →
        ∀ i v, 1 ≤ i → i ≤ 8 → v < 256 → v ≠ goodFrame.getD i 0 →
          (goodFrame.set i v).getD 8 0 ≠ getCheckSum idle14 (goodFrame.set i v)) :=
  checksum_test_iff idle14 goodFrame rfl rfl (by decide)

/-! ## Effect of a call on the clock and on `lastRequest` -/

theorem waitLoop_clock (waited : Int) (s : State) : s.clock ≤ (waitLoop waited s).2.clock := by
  induction waited, s using waitLoop.induct with
  | case1 waited s h hw =>
    rw [waitLoop]
    simp only [h, hw, if_true]
    simp [flush, delay]
  | case2 waited s h s1 hw ih =>
    rw [waitLoop]
    simp only [h, hw, if_true, if_false]
    exact Nat.le_trans (show s.clock ≤ (delay 100 s).clock from Nat.le_add_right _ _) ih
  | case3 waited s h =>
    rw [waitLoop]
    simp only [h, if_false]
    exact Nat.le_refl _

theorem decodeResponse_keeps (w : Nat) (r : List Nat) (s : State) :
    (decodeResponse w r s).2._type = s._type
    ∧ (decodeResponse w r s).2.lastRequest = s.lastRequest
    ∧ (decodeResponse w r s).2.clock = s.clock
    ∧ (decodeResponse w r s).2.SerialConfigured = s.SerialConfigured := by
  unfold decodeResponse
  simp only []
  split <;> exact ⟨rfl, rfl, rfl, rfl⟩

theorem readResponse_keeps (w : Nat) (s : State) :
    (readResponse w s).2._type = s._type
    ∧ (readResponse w s).2.lastRequest = s.lastRequest
    ∧ (readResponse w s).2.clock = s.clock
    ∧ (readResponse w s).2.SerialConfigured = s.SerialConfigured := by
  unfold readResponse
  simp only []
  split
  · split
    · exact ⟨rfl, rfl, rfl, rfl⟩
    · obtain ⟨a, b, c, d⟩ := decodeResponse_keeps w
        (((readBytes 9 (resync s)).1) ++ List.drop ((readBytes 9 (resync s)).1).length
          (List.replicate 9 0)) (readBytes 9 (resync s)).2
      exact ⟨a.trans rfl, b.trans rfl, c.trans rfl, d.trans rfl⟩
  · exact ⟨rfl, rfl, rfl, rfl⟩

/-- A call either leaves `lastRequest` and what has been written alone, or it has passed
the readiness gate, has written one block and has set `lastRequest` to the value of
`millis()` at its start. The clock never goes back and the sensor type stays. -/
theorem exec_effect (w : Nat) (c : Call) (s : State) :
    (c.exec w s)._type = s._type
    ∧ s.clock ≤ (c.exec w s).clock
    ∧ (((c.exec w s)._serial.written = s._serial.written
          ∧ (c.exec w s).lastRequest = s.lastRequest)
        ∨ (isReady w s = true
          ∧ (c.exec w s)._serial.written.length = s._serial.written.length + 1
          ∧ (c.exec w s).lastRequest = millis s)) := by
  cases c with
  | getLastTemperature => exact ⟨rfl, Nat.le_refl _, Or.inl ⟨rfl, rfl⟩⟩
  | setCO2ABCmode enable =>
    simp only [Call.exec, setCO2ABCmode]
    by_cases hser : s.SerialConfigured = true
    · by_cases hr : isReady w s = true
      · simp [hser, hr, write, delay, millis]
      · simp [hser, hr]
    · simp [hser]
  | setCO2background =>
    simp only [Call.exec, setCO2background]
    by_cases hser : s.SerialConfigured = true
    · by_cases hr : isReady w s = true
      · simp [hser, hr, write, delay, millis]
      · simp [hser, hr]
    · simp [hser]
  | setCO2span span_ppm =>
    simp only [Call.exec, setCO2span]
    by_cases hbad : span_ppm < 1000 ∨ span_ppm > 5000
    · simp [hbad]
    · by_cases hser : s.SerialConfigured = true
      · by_cases hr : isReady w s = true
        · simp [hbad, hser, hr, write, delay, millis]
        · simp [hbad, hser, hr]
      · simp [hbad, hser]
  | readCO2UART =>
    simp only [Call.exec]
    by_cases hser : s.SerialConfigured = true
    · by_cases hr : isReady w s = true
      · have hfr := waitLoop_frame 0 (sendRequest s)
        have hck := waitLoop_clock 0 (sendRequest s)
        have hsent : (sendRequest s)._serial.written.length = s._serial.written.length + 1 := by
          simp [sendRequest, write]
        have hlast : (sendRequest s).lastRequest = millis s := rfl
        have hclk : (sendRequest s).clock = s.clock := rfl
        have htyp : (sendRequest s)._type = s._type := rfl
        cases hwl : waitLoop 0 (sendRequest s) with
        | mk flag s1 =>
          rw [hwl] at hfr hck
          cases flag with
          | false =>
            have e : readCO2UART w s = (STATUS_NO_RESPONSE, s1) := by
              simp [readCO2UART, hser, hr, hwl]
            rw [e]
            refine ⟨hfr.1.type_eq.trans htyp, by simpa [hclk] using hck, Or.inr ⟨hr, ?_, ?_⟩⟩
            · show s1._serial.written.length = _
              rw [hfr.1.written_eq, hsent]
            · exact hfr.1.lastRequest_eq.trans hlast
          | true =>
            rw [readCO2UART_of_wait w s s1 hser hr hwl]
            obtain ⟨a, b, c, _⟩ := readResponse_keeps w s1
            refine ⟨a.trans (hfr.1.type_eq.trans htyp), ?_, Or.inr ⟨hr, ?_, ?_⟩⟩
            · rw [c]
              simpa [hclk] using hck
            · rw [readResponse_written, hfr.1.written_eq, hsent]
            · rw [b]
              exact hfr.1.lastRequest_eq.trans hlast
      · simp [readCO2UART, hser, hr]
    · simp [readCO2UART, hser]

/-! ## The rate limit along a sequence of calls -/

theorem before_keeps (e : Event) (s : State) :
    (e.before s)._type = s._type ∧ (e.before s).lastRequest = s.lastRequest
    ∧ (e.before s)._serial.written = s._serial.written ∧ s.clock ≤ (e.before s).clock :=
  ⟨rfl, rfl, rfl, Nat.le_add_right _ _⟩

/-- Invariant of a run from any state of a known variant: the clock does not go back,
every logged frame was checked and written past the warm-up, the `lastRequest` values of
the logged frames go up from the current `lastRequest` in steps of more than the minimum
interval, and every written block is in the log. -/
theorem sendLog_invariant (w : Nat) (hw : 18 ≤ w) (es : List Event) (s : State)
    (htype : s._type = 14 ∨ s._type = 19) (hclock : (run w es s).clock < 2 ^ 32) :
    s.clock ≤ (run w es s).clock
    ∧ (∀ p ∈ sendLog w es s, 180000 ≤ p.1 ∧ p.1 ≤ p.2)
    ∧ List.Chain (fun a b => a + (if s._type = 14 then 60000 else 120000) < b) s.lastRequest
        ((sendLog w es s).map Prod.snd)
    ∧ (run w es s)._serial.written.length
        = s._serial.written.length + (sendLog w es s).length := by
  induction es generalizing s with
  | nil => exact ⟨Nat.le_refl _, by simp [sendLog], by simp [sendLog], by simp [run, sendLog]⟩
  | cons e es ih =>
    obtain ⟨bt, bl, bw, bc⟩ := before_keeps e s
    obtain ⟨xt, xc, xcase⟩ := exec_effect w e.call (e.before s)
    have htype0 : (e.before s)._type = 14 ∨ (e.before s)._type = 19 := by rw [bt]; exact htype
    have htype1 : (e.call.exec w (e.before s))._type = 14
        ∨ (e.call.exec w (e.before s))._type = 19 := by rw [xt]; exact htype0
    have hrun : run w (e :: es) s = run w es (e.call.exec w (e.before s)) := rfl
    rw [hrun] at hclock ⊢
    obtain ⟨ic, ip, ich, iw⟩ := ih (e.call.exec w (e.before s)) htype1 hclock
    have hty1 : (e.call.exec w (e.before s))._type = s._type := xt.trans bt
    rw [hty1] at ich
    have hlog : sendLog w (e :: es) s
        = (if (e.call.exec w (e.before s))._serial.written.length
              ≠ (e.before s)._serial.written.length
            then [(millis (e.before s), (e.call.exec w (e.before s)).lastRequest)] else [])
          ++ sendLog w es (e.call.exec w (e.before s)) := rfl
    rw [hlog]
    rcases xcase with ⟨hwr, hlr⟩ | ⟨hready, hwr, hlr⟩
    · have hsame : ¬ (e.call.exec w (e.before s))._serial.written.length
          ≠ (e.before s)._serial.written.length := by
        rw [hwr]; simp
      rw [if_neg hsame, List.nil_append]
      rw [hlr, bl] at ich
      refine ⟨by omega, ip, ich, ?_⟩
      rw [iw, hwr, bw]
    · have hgrew : (e.call.exec w (e.before s))._serial.written.length
          ≠ (e.before s)._serial.written.length := by
        rw [hwr]; omega
      rw [if_pos hgrew]
      have hmil : millis (e.before s) = (e.before s).clock :=
        Nat.mod_eq_of_lt (by
          have : (e.before s).clock < 2 ^ 32 := by omega
          exact this)
      rw [isReady_eq_of_known w (e.before s) hw htype0] at hready
      have hready2 := of_decide_eq_true hready
      rw [bt, bl] at hready2
      rw [hlr] at ich ⊢
      refine ⟨by omega, ?_, ?_, ?_⟩
      · intro p hp
        rcases List.mem_append.mp hp with h | h
        · have hpe : p = (millis (e.before s), millis (e.before s)) := by simpa using h
          rw [hpe]
          exact ⟨hready2.1, Nat.le_refl _⟩
        · exact ip p h
      · simp only [List.singleton_append, List.map_cons]
        exact List.Chain.cons hready2.2 ich
      · rw [iw, hwr, bw]
        simp only [List.singleton_append, List.length_cons]
        omega

/-- The rate limit where `int` has at least 18 bits: for a known variant with serial configured, on a
clock that stays below `2^32`, starting from `lastRequest = 0`, along every sequence of
calls of `readCO2UART`, `setCO2ABCmode`, `setCO2background`, `setCO2span` and
`getLastTemperature` with any time passing and any bytes arriving in between: every frame
is written at a time of at least 180000 ms; the `lastRequest` it sets is not earlier than
the time of its readiness check; the `lastRequest` values of consecutive written frames
(the first one compared with the initial 0) differ by more than the minimum interval of
the variant; and every block handed to `write` is one of these frames. -/
theorem rate_limit (w : Nat) (s : State) (es : List Event) (hw : 18 ≤ w)
    (htype : s._type = 14 ∨ s._type = 19) (_hser : s.SerialConfigured = true)
    (hlast : s.lastRequest = 0) (hclock : (run w es s).clock < 2 ^ 32) :
    (∀ p ∈ sendLog w es s, 180000 ≤ p.1 ∧ p.1 ≤ p.2)
    ∧ List.Chain (fun a b => a + (if s._type = 14 then 60000 else 120000) < b) 0
        ((sendLog w es s).map Prod.snd)
    ∧ (run w es s)._serial.written.length
        = s._serial.written.length + (sendLog w es s).length := by
  obtain ⟨_, hp, hch, hwr⟩ := sendLog_invariant w hw es s htype hclock
  rw [hlast] at hch
  exact ⟨hp, hch, hwr⟩

/-- The run of `fourCalls` from `fresh14`: two frames are written, at 200000 ms and at
270200 ms. -/
theorem fourCalls_eval :
    (run 32 fourCalls fresh14).clock = 270305
    ∧ sendLog 32 fourCalls fresh14 = [(200000, 200000), (270200, 270200)] := by
  have h1 : Call.exec 32 Call.readCO2UART
      (Event.before
        { elapsed := 200000, incoming := [], arrivals := [[], goodFrame],
          call := Call.readCO2UART } fresh14)
      = (readResponse 32 (delay 100 (delay 100 (sendRequest
          (Event.before
            { elapsed := 200000, incoming := [], arrivals := [[], goodFrame],
              call := Call.readCO2UART } fresh14))))).2 := by
    simp only [Call.exec]
    rw [readCO2UART_of_wait 32 _ _ rfl (by decide)
      (by
        rw [waitLoop, if_pos (by decide), if_neg (by decide)]
        rw [waitLoop, if_pos (by decide), if_neg (by decide)]
        rw [waitLoop, if_neg (by decide)])]
  simp only [fourCalls, run, sendLog, h1]
  decide

theorem rate_limit_witness :
    (∀ p ∈ sendLog 32 fourCalls fresh14, 180000 ≤ p.1 ∧ p.1 ≤ p.2)
    ∧ List.Chain (fun a b => a + (if fresh14._type = 14 then 60000 else 120000) < b) 0
        ((sendLog 32 fourCalls fresh14).map Prod.snd)
    ∧ (run 32 fourCalls fresh14)._serial.written.length
        = fresh14._serial.written.length + (sendLog 32 fourCalls fresh14).length :=
  rate_limit 32 fresh14 fourCalls (by decide) (Or.inl rfl) rfl rfl
    (by rw [fourCalls_eval.1]; decide)

/-! ## Success values and status codes -/

/-- C11, the code at the failing input: with a 16-bit `int` the constant `60 * 1000`
overflows, `MHZ14A_RESPONSE_TIME` becomes 4294961760 (and `MHZ19B_RESPONSE_TIME`
4294956224). On `idle14` (type 14, `millis()` = 240000, `lastRequest` = 0)
`setCO2ABCmode(true)` writes its frame, sets `lastRequest` to 240000 and returns at
240100; `isReady()` is then true although only 100 ms of the 60000 ms have passed, and
it is true again with the clock set to 240001. With a 32-bit `int` it is false. -/
theorem isReady_after_send_int16 :
    idle14._type = 14 ∧ idle14.SerialConfigured = true ∧ idle14.lastRequest = 0
    ∧ millis idle14 = 240000
    ∧ MHZ14A_RESPONSE_TIME 16 = 4294961760 ∧ MHZ19B_RESPONSE_TIME 16 = 4294956224
    ∧ (setCO2ABCmode 16 true idle14).2._serial.written
        = [[0xFF, 0x01, 0x79, 0xA0, 0x00, 0x00, 0x00, 0x00, 0xE6]]
    ∧ (setCO2ABCmode 16 true idle14).2.lastRequest = 240000
    ∧ millis (setCO2ABCmode 16 true idle14).2 = 240100
    ∧ 240100 - 240000 < 60000
    ∧ isReady 16 (setCO2ABCmode 16 true idle14).2 = true
    ∧ isReady 16 { (setCO2ABCmode 16 true idle14).2 with clock := 240001 } = true
    ∧ isReady 16 { (setCO2ABCmode 16 true { idle14 with _type := 19 }).2 with clock := 240001 }
        = true
    ∧ isReady 32 (setCO2ABCmode 32 true idle14).2 = false := by
  decide

/-- C19, the code at the failing input: with a 16-bit `int`, on `fresh14` (type 14,
serial configured, `lastRequest` = 0) the three calls of `threeSetters` each pass the
readiness gate and write a frame, at 200000 ms, 200101 ms and 200201 ms: consecutive
`lastRequest` values differ by 101 ms and 100 ms, not by more than 60000 ms. With a
32-bit `int` only the first call writes. -/
theorem three_frames_int16 :
    fresh14._type = 14 ∧ fresh14.SerialConfigured = true ∧ fresh14.lastRequest = 0
    ∧ (run 16 threeSetters fresh14).clock = 200301
    ∧ sendLog 16 threeSetters fresh14
        = [(200000, 200000), (200101, 200101), (200201, 200201)]
    ∧ (run 16 threeSetters fresh14)._serial.written
        = [[0xFF, 0x01, 0x79, 0xA0, 0x00, 0x00, 0x00, 0x00, 0xE6],
          [0xFF, 0x01, 0x87, 0x00, 0x00, 0x00, 0x00, 0x00, 0x78],
          [0xFF, 0x01, 0x88, 7, 208, 0x00, 0x00, 0x00, 0xA0]]
    ∧ (run 16 threeSetters fresh14).lastRequest = 200201
    ∧ ¬ (200000 + 60000 < 200101) ∧ ¬ (200101 + 60000 < 200201)
    ∧ ¬ List.Chain (fun a b => a + (if fresh14._type = 14 then 60000 else 120000) < b) 0
        ((sendLog 16 threeSetters fresh14).map Prod.snd)
    ∧ sendLog 32 threeSetters fresh14 = [(200000, 200000)] := by
  have hlog : sendLog 16 threeSetters fresh14
      = [(200000, 200000), (200101, 200101), (200201, 200201)] := by decide
  refine ⟨by decide, by decide, by decide, by decide, hlog, by decide, by decide, by decide,
    by decide, ?_, by decide⟩
  rw [hlog]
  intro h
  have h2 := (List.chain_cons.mp (List.chain_cons.mp h).2).1
  exact absurd h2 (by decide)
end MHZ
